import Mathlib

/-!
# Verification of the CLINICAL-SUPPLY hybrid decision-dispatch orchestrator

A shallow embedding of the core pipeline of the `CLINICAL-SUPPLY` service
(`app/rules_engine.py`, `app/orchestrator.py`, `app/gemini_client.py`,
`app/depot_optimizer.py`, `app/config.py`) and proofs about it.

Modelling conventions:
* Python `int` is `Int`; Python `float` is an exact rational carrying the
  IEEE-754 binary64 value, and every float operation of the source is
  embedded as the exact rational operation followed by `roundDouble`
  (round to nearest, ties to even, 53-bit significand, with the exponent
  unbounded — faithful for the magnitudes the pipeline handles; overflow
  and subnormal rounding never occur there).  All rational arithmetic is
  expressed through `Rat.divInt` so that terms evaluate by kernel
  reduction.
* The remote model (network call and JSON parse) is a parameter: an
  `LLMOracle` returns either a parsed result or an error, standing for the
  exception paths of the Python client.  All other code is total, matching
  the source, where the rule lane performs no I/O and cannot raise on
  well-formed site rows.
* Thread-pool fan-out (`ThreadPoolExecutor` + `as_completed`) returns
  results in nondeterministic completion order; the model produces them in
  submission order and the theorems that mention parallel modes are stated
  up to an arbitrary permutation of the result list.
* Wall-clock latency fields are not modelled (real time).
-/

namespace ClinSupply

/-! ## IEEE-754 binary64 model over exact rationals -/

/-- Fuel-driven ⌊log₂ n⌋ (structural recursion so the kernel can reduce it). -/
def log2fuel : Nat → Nat → Nat
  | 0, _ => 0
  | fuel+1, n => if n ≤ 1 then 0 else log2fuel fuel (n / 2) + 1

/-- Number of binary digits of `n` (0 for 0). -/
def bitLen (n : Nat) : Nat := if n = 0 then 0 else log2fuel n n + 1

/-- ⌊log₂ (a / b)⌋ for positive naturals `a`, `b`, computed without division. -/
def ratLog2Pair (a b : Nat) : Int :=
  let k : Int := (bitLen a : Int) - (bitLen b : Int)
  if b * 2 ^ (max k 0).toNat ≤ a * 2 ^ (max (-k) 0).toNat then k else k - 1

/-- Round `N / D` to the nearest integer, ties to even. -/
def roundMantissa (N D : Int) : Int :=
  let f : Int := N.fdiv D
  let r : Int := N - f * D
  if 2 * r < D then f
  else if D < 2 * r then f + 1
  else if f % 2 = 0 then f else f + 1

/-- Round the nonzero rational `n / d` to the nearest (ties to even) rational
with a 53-bit significand, i.e. to the IEEE-754 binary64 value. -/
def roundDoubleAux (n : Int) (d : Nat) : ℚ :=
  let e : Int := ratLog2Pair n.natAbs d
  let s : Int := 52 - e
  let up : Nat := (max s 0).toNat
  let dn : Nat := (max (-s) 0).toNat
  Rat.divInt (roundMantissa (n * 2 ^ up) ((d : Int) * 2 ^ dn) * 2 ^ dn) (2 ^ up)

/-- Round an exact rational to the nearest IEEE-754 binary64 value. -/
def roundDouble (q : ℚ) : ℚ := if q = 0 then 0 else roundDoubleAux q.num q.den

/-- Exact rational subtraction, written via `divInt` for kernel reduction. -/
def qsub (a b : ℚ) : ℚ := Rat.divInt (a.num * b.den - b.num * a.den) ((a.den : Int) * b.den)

/-- Exact rational addition, written via `divInt` for kernel reduction. -/
def qadd (a b : ℚ) : ℚ := Rat.divInt (a.num * b.den + b.num * a.den) ((a.den : Int) * b.den)

/-- Exact rational multiplication, written via `divInt` for kernel reduction. -/
def qmul (a b : ℚ) : ℚ := Rat.divInt (a.num * b.num) ((a.den : Int) * b.den)

/-- Exact rational division, written via `divInt` for kernel reduction. -/
def qdiv (a b : ℚ) : ℚ := Rat.divInt (a.num * b.den) ((a.den : Int) * b.num)

theorem qsub_eq_sub (a b : ℚ) : qsub a b = a - b := by
  unfold qsub
  conv_rhs => rw [← Rat.num_divInt_den a, ← Rat.num_divInt_den b]
  rw [Rat.divInt_sub_divInt _ _ (by exact_mod_cast a.den_nz) (by exact_mod_cast b.den_nz)]

theorem qadd_eq_add (a b : ℚ) : qadd a b = a + b := by
  unfold qadd
  conv_rhs => rw [← Rat.num_divInt_den a, ← Rat.num_divInt_den b]
  rw [Rat.divInt_add_divInt _ _ (by exact_mod_cast a.den_nz) (by exact_mod_cast b.den_nz)]

theorem qmul_eq_mul (a b : ℚ) : qmul a b = a * b := by
  unfold qmul
  conv_rhs => rw [← Rat.num_divInt_den a, ← Rat.num_divInt_den b]
  rw [Rat.divInt_mul_divInt']

theorem qdiv_eq_div (a b : ℚ) : qdiv a b = a / b := by
  unfold qdiv
  conv_rhs => rw [← Rat.num_divInt_den a, ← Rat.num_divInt_den b]
  rw [Rat.divInt_div_divInt]

/-- Python float subtraction `a - b` (correctly rounded). -/
def fsub (a b : ℚ) : ℚ := roundDouble (qsub a b)

/-- Python float addition `a + b` (correctly rounded). -/
def fadd (a b : ℚ) : ℚ := roundDouble (qadd a b)

/-- Python float multiplication `a * b` (correctly rounded). -/
def fmul (a b : ℚ) : ℚ := roundDouble (qmul a b)

/-- Python float true division `a / b` (correctly rounded). -/
def fdiv (a b : ℚ) : ℚ := roundDouble (qdiv a b)

/-- Python `float(n)` for an `int` argument. -/
def intToFloat (n : Int) : ℚ := roundDouble (Rat.divInt n 1)

/-- Python `int(q)` on a float: truncation toward zero. -/
def truncToInt (q : ℚ) : Int := if 0 ≤ q then ⌊q⌋ else ⌈q⌉

/-- The binary64 value of the literal `1.2`. -/
def float_1_2 : ℚ := roundDouble (Rat.divInt 6 5)

/-- The binary64 value of the literal `1.5` (exact). -/
def float_1_5 : ℚ := Rat.divInt 3 2

/-- The binary64 value of the literal `0.5` (exact). -/
def float_0_5 : ℚ := Rat.divInt 1 2

/-- The binary64 value of the literal `0.3`. -/
def float_0_3 : ℚ := roundDouble (Rat.divInt 3 10)

/-- The binary64 value of the literal `0.1`. -/
def float_0_1 : ℚ := roundDouble (Rat.divInt 1 10)

/-! ## `app/config.py` — the configuration constants the pipeline reads -/

/-- Flat configuration (`Config` in `app/config.py`); fields keep the
source's names and default values.  Thresholds that are floats in Python
are stored as their binary64 rational values. -/
structure Config where
  MIN_ORDER_QUANTITY : Int := 10
  SAFETY_STOCK_MULTIPLIER : ℚ := float_1_2
  EXPIRY_THRESHOLD_DAYS : Int := 30
  BATCH_API_SIZE : Nat := 5
  USE_BATCH_API : Bool := true
  USE_PARALLEL : Bool := true
  MAX_CONCURRENT_REQUESTS : Nat := 3
  USE_SELECTIVE_LLM : Bool := true
  LLM_PRIORITY_THRESHOLD : ℚ := float_1_5
  LLM_EXPIRY_THRESHOLD : Int := 60
deriving Repr

/-- The defaults of `app/config.py` with no environment overrides. -/
def defaultConfig : Config := {}

/-! ## Site rows (`compute_site_features` output) and decisions -/

/-- One row of the site-features frame consumed by the orchestrator
(`site_id`, `projected_30d_demand`, `current_inventory`, `days_to_expiry`,
`urgency_score`); the float-valued urgency carries its binary64 value. -/
structure Site where
  site_id : String
  projected_30d_demand : Int
  current_inventory : Int
  days_to_expiry : Int
  urgency_score : ℚ
deriving Repr, DecidableEq

/-- Result dictionary of `recommend_resupply` in `app/rules_engine.py`. -/
structure RulesResult where
  action : String
  quantity : Int
  reason : String
deriving Repr, DecidableEq

/-! ## `app/rules_engine.py` -/

/-- The safety-stock expression
`int(projected_demand * (Config.SAFETY_STOCK_MULTIPLIER - 1))` of
`recommend_resupply`, computed in binary64 exactly as Python does. -/
def safety_stock_calc (cfg : Config) (projected_demand : Int) : Int :=
  truncToInt (fmul (intToFloat projected_demand) (fsub cfg.SAFETY_STOCK_MULTIPLIER 1))

/-- `recommend_resupply` (`app/rules_engine.py` lines 8-68).  The
`days_to_expiry < threshold` comparison happens on floats in the source but
is exact for integral values, so it is stated on `Int`. -/
def recommend_resupply (cfg : Config) (site_features : Site) : RulesResult :=
  let projected_demand := site_features.projected_30d_demand
  let current_inventory := site_features.current_inventory
  let days_to_expiry := site_features.days_to_expiry
  let safety_stock := safety_stock_calc cfg projected_demand
  if days_to_expiry < cfg.EXPIRY_THRESHOLD_DAYS then
    { action := "resupply"
      quantity := max cfg.MIN_ORDER_QUANTITY (projected_demand + safety_stock - current_inventory)
      reason := "Inventory expiring in " ++ toString days_to_expiry ++ " days. " ++
        "Projected demand: " ++ toString projected_demand ++ ", " ++
        "Current inventory: " ++ toString current_inventory ++ ". " ++
        "Resupply needed to maintain stock levels." }
  else if current_inventory + safety_stock < projected_demand then
    let recommended_quantity :=
      max cfg.MIN_ORDER_QUANTITY (projected_demand + safety_stock - current_inventory)
    { action := "resupply"
      quantity := recommended_quantity
      reason := "Projected 30-day demand (" ++ toString projected_demand ++ ") exceeds " ++
        "current inventory (" ++ toString current_inventory ++ ") plus safety stock. " ++
        "Resupply " ++ toString recommended_quantity ++ " kits recommended." }
  else
    { action := "no_resupply"
      quantity := 0
      reason := "Current inventory (" ++ toString current_inventory ++ ") sufficient for " ++
        "projected 30-day demand (" ++ toString projected_demand ++ "). " ++
        "No resupply needed at this time." }

/-! ## List utilities shared by the embedding

`pysortBy` is a stable sort (insertion sort).  Python's `list.sort` /
`sorted` are also stable, and a stable sort with respect to a total
preorder is unique, so for the total preorders used by the source the two
agree; insertion sort is used because it is structurally recursive and
therefore kernel-reducible. -/

/-- Insert `a` before the first element `b` with `le a b`. -/
def insertSorted (le : α → α → Bool) (a : α) : List α → List α
  | [] => [a]
  | b :: bs => if le a b then a :: b :: bs else b :: insertSorted le a bs

/-- Stable sort with respect to the Boolean preorder `le`. -/
def pysortBy (le : α → α → Bool) (l : List α) : List α := l.foldr (insertSorted le) []

theorem insertSorted_perm (le : α → α → Bool) (a : α) (l : List α) :
    List.Perm (insertSorted le a l) (a :: l) := by
  induction l with
  | nil => exact List.Perm.refl _
  | cons b bs ih =>
    unfold insertSorted
    by_cases h : le a b
    · simp [h]
    · simp only [h, if_neg, Bool.false_eq_true, not_false_eq_true, if_neg]
      exact ((ih.cons b).trans (List.Perm.swap a b bs))

theorem pysortBy_perm (le : α → α → Bool) (l : List α) : List.Perm (pysortBy le l) l := by
  induction l with
  | nil => exact List.Perm.refl _
  | cons a as ih => exact (insertSorted_perm le a (pysortBy le as)).trans (ih.cons a)

/-- `enumerate` of Python: pair each element with its index, starting at `i`. -/
def enumFrom (i : Nat) : List α → List (Nat × α)
  | [] => []
  | a :: as => (i, a) :: enumFrom (i + 1) as

/-- Split a list into consecutive chunks of size `n` (fuel-driven so that
the kernel can reduce it; `fuel ≥ l.length` suffices). -/
def chunkAux (n : Nat) : Nat → List α → List (List α)
  | 0, _ => []
  | _, [] => []
  | fuel+1, l => l.take n :: chunkAux n fuel (l.drop n)

/-- `range(0, len(l), n)` slicing of the batch loop in `Orchestrator.run`. -/
def chunkList (n : Nat) (l : List α) : List (List α) := chunkAux n l.length l

/-- Python dict insertion: replace the value at an existing key in place,
else append the binding. -/
def dictInsert (l : List (String × α)) (k : String) (v : α) : List (String × α) :=
  match l with
  | [] => [(k, v)]
  | (k', v') :: rest => if k' = k then (k, v) :: rest else (k', v') :: dictInsert rest k v

/-- Build a Python dict from an association list (later bindings override). -/
def dictOf (l : List (String × α)) : List (String × α) :=
  l.foldl (fun m kv => dictInsert m kv.1 kv.2) []

/-- Dict lookup. -/
def alookup (k : String) : List (String × α) → Option α
  | [] => none
  | (k', v) :: rest => if k' = k then some v else alookup k rest

/-! ## `app/gemini_client.py` — response shapes and the remote oracle -/

/-- The `structured_result` object of the client's output contract. -/
structure StructuredResult where
  action : String
  quantity : Int
  confidence : ℚ
  reasons : List String
deriving Repr, DecidableEq

/-- The `{structured_result, draft_message}` dictionary returned by
`get_recommendation_justification` / one element of the batch result. -/
structure GeminiResult where
  structured_result : StructuredResult
  draft_message : String
deriving Repr, DecidableEq

/-- The remote reasoning endpoint, abstracted: each call either returns the
parsed payload or raises (`Except.error`), covering every HTTP, timeout and
parse failure path of `GeminiClient`. -/
structure LLMOracle where
  single : Site → Except String GeminiResult
  batch : List Site → Except String (List GeminiResult)

/-- The patched `structured_result` used when a parsed site entry lacks one
(`_parse_batch_response`, `gemini_client.py` lines 454-460). -/
def missingStructuredResult : StructuredResult :=
  { action := "no_resupply", quantity := 0, confidence := float_0_5
    reasons := ["Unable to parse structured result"] }

/-- The low-confidence fallback substituted for an input site id absent from
the batch response (`_parse_batch_response`, lines 474-484). -/
def missingSiteFallback (site_id : String) : GeminiResult :=
  { structured_result :=
      { action := "no_resupply", quantity := 0, confidence := float_0_3
        reasons := ["Site " ++ site_id ++ " not found in batch response"] }
    draft_message := "Unable to generate LLM analysis for site " ++ site_id ++ "." }

/-- One element of the `sites` array of a parsed batch response body; each
field may be absent in the JSON. -/
structure BatchEntry where
  site_id : Option String
  structured_result : Option StructuredResult
  draft_message : Option String
deriving Repr, DecidableEq

/-- Normalisation the parser applies to a present site entry: patch missing
`structured_result` / `draft_message` with conservative defaults. -/
def normalizeEntry (e : BatchEntry) : GeminiResult :=
  { structured_result := e.structured_result.getD missingStructuredResult
    draft_message := e.draft_message.getD "Unable to generate justification message." }

/-- `GeminiClient._parse_batch_response` (lines 430-492) after JSON decoding
succeeded and the `sites` array was extracted: build a site-id → result map
(entries without a truthy `site_id` are skipped, later duplicates override),
then emit one result per input id in input order, substituting
`missingSiteFallback` for absent ids. -/
def parse_batch_response (entries : List BatchEntry) (site_ids : List String) :
    List GeminiResult :=
  let results_map := entries.foldl
    (fun m e =>
      match e.site_id with
      | none => m
      | some sid => if sid = "" then m else dictInsert m sid (normalizeEntry e))
    []
  site_ids.map (fun sid => (alookup sid results_map).getD (missingSiteFallback sid))

/-! ## `app/gemini_client.py` — credential rotation state -/

/-- The key-rotation state of `GeminiClient.__init__` (lines 21-26):
configured keys, the round-robin cursor, and the per-key cooldown deadline
and failure count (time values are float seconds). -/
structure KeyState where
  api_keys : List String
  current_key_index : Nat
  key_cooldown : String → ℚ
  key_failures : String → Nat

/-- Round-robin selection over an availability list (the tail of
`_get_next_available_key`, lines 512-518): index by
`current_key_index % len(available_keys)` and advance the cursor. -/
def pickRoundRobin (avail : List String) (st : KeyState) : Option String × KeyState :=
  match avail with
  | [] => (none, st)
  | a :: rest =>
      let key := (a :: rest).get ⟨st.current_key_index % (a :: rest).length,
        Nat.mod_lt _ (Nat.succ_pos rest.length)⟩
      (some key,
        { st with current_key_index := (st.current_key_index + 1) % (a :: rest).length })

/-- `GeminiClient._get_next_available_key` (lines 494-518): filter out keys
still in cooldown at `now`; if none remain, zero every configured key's
cooldown and use the full key list; then pick round-robin. -/
def get_next_available_key (now : ℚ) (st : KeyState) : Option String × KeyState :=
  let avail := st.api_keys.filter (fun k => decide (st.key_cooldown k ≤ now))
  if avail.isEmpty then
    pickRoundRobin st.api_keys
      { st with key_cooldown := fun k => if st.api_keys.contains k then 0 else st.key_cooldown k }
  else
    pickRoundRobin avail st

/-- `GeminiClient.__init__` (lines 11-24): raises `ValueError` when no API
key is configured, else initialises the rotation state. -/
def gemini_client_init (api_keys : List String) : Except String KeyState :=
  if api_keys.isEmpty then
    Except.error ("No GEMINI_API_KEY configured. Set at least one of: GEMINI_API_KEY, " ++
      "GEMINI_API_KEY_1, GEMINI_API_KEY_2, GEMINI_API_KEY_3")
  else
    Except.ok { api_keys := api_keys, current_key_index := 0
                key_cooldown := fun _ => 0, key_failures := fun _ => 0 }

/-! ## `app/orchestrator.py` -/

/-- One entry of the orchestrator's `results` list before enrichment
(latency fields are not modelled — real time). -/
structure Decision where
  site_id : String
  action : String
  quantity : Int
  confidence : ℚ
  reason : String
  llm_used : Bool
deriving Repr, DecidableEq

/-- The orchestrator state relevant to dispatch (`Orchestrator.__init__`):
whether `GeminiClient()` construction succeeded, and the LLM failure
counter with its budget. -/
structure OrchestratorState where
  llm_available : Bool
  llm_failure_count : Nat
  max_llm_failures : Nat := 3
deriving Repr, DecidableEq

/-- `Orchestrator.__init__` (lines 24-44): try to construct the client; on
failure disable the LLM and fall back to rules (the counter starts at 0). -/
def orchestrator_init (api_keys : List String) : OrchestratorState :=
  match gemini_client_init api_keys with
  | Except.ok _ => { llm_available := true, llm_failure_count := 0 }
  | Except.error _ => { llm_available := false, llm_failure_count := 0 }

/-- `Orchestrator._should_use_llm` (lines 57-89). -/
def should_use_llm (cfg : Config) (st : OrchestratorState) (site_row : Site) : Bool :=
  if !cfg.USE_SELECTIVE_LLM || !st.llm_available then
    st.llm_available && st.llm_failure_count < st.max_llm_failures
  else if cfg.LLM_PRIORITY_THRESHOLD ≤ site_row.urgency_score then true
  else if site_row.days_to_expiry ≤ cfg.LLM_EXPIRY_THRESHOLD then true
  else if site_row.current_inventory < site_row.projected_30d_demand then true
  else false

/-- `Orchestrator._process_site_with_rules` (lines 91-111). -/
def process_site_with_rules (cfg : Config) (row : Site) : Decision :=
  let rules_result := recommend_resupply cfg row
  { site_id := row.site_id
    action := rules_result.action
    quantity := rules_result.quantity
    confidence := float_0_5
    reason := rules_result.reason ++ " (Rules engine)"
    llm_used := false }

/-- `Orchestrator._process_sites_batch_llm` (lines 113-166), returning the
decisions together with the updated failure counter.  On success the i-th
site takes the i-th batch result (rules fallback when the response is
short) and the counter resets; when the call raises, the whole batch
degrades to the rule engine and the counter increments. -/
def process_sites_batch_llm (cfg : Config) (hasClient : Bool) (oracle : LLMOracle)
    (count : Nat) (sites_batch : List Site) : List Decision × Nat :=
  if !hasClient || sites_batch.isEmpty then ([], count)
  else
    match oracle.batch sites_batch with
    | Except.ok batch_results =>
        ((enumFrom 0 sites_batch).map (fun p =>
          match batch_results.get? p.1 with
          | some gemini_result =>
              { site_id := p.2.site_id
                action := gemini_result.structured_result.action
                quantity := gemini_result.structured_result.quantity
                confidence := gemini_result.structured_result.confidence
                reason := gemini_result.draft_message
                llm_used := true }
          | none => process_site_with_rules cfg p.2), 0)
    | Except.error _ =>
        (sites_batch.map (process_site_with_rules cfg), count + 1)

/-- `Orchestrator._process_site_individual_llm` (lines 168-199). -/
def process_site_individual_llm (cfg : Config) (hasClient : Bool) (oracle : LLMOracle)
    (count : Nat) (row : Site) : Decision × Nat :=
  if !hasClient then (process_site_with_rules cfg row, count)
  else
    match oracle.single row with
    | Except.ok gemini_result =>
        ({ site_id := row.site_id
           action := gemini_result.structured_result.action
           quantity := gemini_result.structured_result.quantity
           confidence := gemini_result.structured_result.confidence
           reason := gemini_result.draft_message
           llm_used := true }, 0)
    | Except.error _ => (process_site_with_rules cfg row, count + 1)

/-- The priority sort of `Orchestrator.run` line 277:
`sites_list.sort(key=lambda x: (-urgency_score, days_to_expiry))`, a stable
sort by urgency descending then days-to-expiry ascending. -/
def sortSites (sites : List Site) : List Site :=
  pysortBy (fun a b => decide (b.urgency_score < a.urgency_score ∨
    (a.urgency_score = b.urgency_score ∧ a.days_to_expiry ≤ b.days_to_expiry))) sites

/-- The reasoning-lane slice of the classification loop (lines 283-287). -/
def classified_llm_sites (cfg : Config) (st : OrchestratorState) (sites : List Site) :
    List Site :=
  (sortSites sites).filter (should_use_llm cfg st)

/-- The rule-lane slice of the classification loop (lines 283-287). -/
def classified_rules_sites (cfg : Config) (st : OrchestratorState) (sites : List Site) :
    List Site :=
  (sortSites sites).filter (fun s => !should_use_llm cfg st s)

/-! ## `app/depot_optimizer.py` -/

/-- One element of `allocation_plan["allocations"]`. -/
structure AllocationEntry where
  depot_id : String
  site_id : String
  quantity : Int
  lead_time_days : Int
deriving Repr, DecidableEq

/-- The allocation plan returned by `optimize_depot_allocation`.  The maps
are Python dicts in insertion order. -/
structure AllocationPlan where
  allocations : List AllocationEntry
  total_allocated : Int
  unmet_demand : List (String × Int)
  excess_inventory : List (String × Int)
  optimization_score : ℚ
deriving Repr, DecidableEq

/-- The candidate a depot contributes in `_find_best_depot` (lines 106-124):
skipped when its remaining inventory is nonpositive or it has no lead time
to the site; otherwise `(depot, min(demand, available), score)` with
`score = lead_time + 0.1 × shipping_cost` in float arithmetic. -/
def depotCandidate (site_id : String) (demand : Int)
    (lead_times : String → String → Option Int)
    (shipping_costs : Option (String → String → Option ℚ))
    (p : String × Int) : Option (String × Int × ℚ) :=
  if p.2 ≤ 0 then none
  else
    match lead_times p.1 site_id with
    | none => none
    | some lead_time =>
        let allocatable := min demand p.2
        let score : ℚ := intToFloat lead_time
        let score :=
          match shipping_costs with
          | none => score
          | some costs =>
              match costs p.1 site_id with
              | none => score
              | some c => fadd score (fmul c float_0_1)
        some (p.1, allocatable, score)

/-- `DepotOptimizer._find_best_depot` (lines 95-133): collect the
candidates, stable-sort ascending by score and take the best. -/
def find_best_depot (site_id : String) (demand : Int)
    (depot_inventory : List (String × Int)) (lead_times : String → String → Option Int)
    (shipping_costs : Option (String → String → Option ℚ)) : Option (String × Int) :=
  let candidates : List (String × Int × ℚ) :=
    depot_inventory.filterMap (depotCandidate site_id demand lead_times shipping_costs)
  match pysortBy (fun a b => decide (a.2.2 ≤ b.2.2)) candidates with
  | [] => none
  | best :: _ => some (best.1, best.2.1)

/-- The mutable loop state of `optimize_depot_allocation`. -/
structure AllocState where
  allocations : List AllocationEntry
  total_allocated : Int
  unmet_demand : List (String × Int)
  remaining_depot_inv : List (String × Int)
deriving Repr, DecidableEq

/-- One iteration of the greedy loop of `optimize_depot_allocation`
(lines 55-79) for a site with the given net demand. -/
def allocStep (lead_times : String → String → Option Int)
    (shipping_costs : Option (String → String → Option ℚ))
    (acc : AllocState) (site : String × Int) : AllocState :=
  if site.2 ≤ 0 then acc
  else
    match find_best_depot site.1 site.2 acc.remaining_depot_inv lead_times shipping_costs with
    | some best =>
        let acc' : AllocState :=
          { allocations := acc.allocations ++
              [{ depot_id := best.1, site_id := site.1, quantity := best.2
                 lead_time_days := ((lead_times best.1 site.1).getD 7) }]
            total_allocated := acc.total_allocated + best.2
            unmet_demand := acc.unmet_demand
            remaining_depot_inv := acc.remaining_depot_inv.map
              (fun p => if p.1 = best.1 then (p.1, p.2 - best.2) else p) }
        if best.2 < site.2 then
          { acc' with unmet_demand := acc'.unmet_demand ++ [(site.1, site.2 - best.2)] }
        else acc'
    | none => { acc with unmet_demand := acc.unmet_demand ++ [(site.1, site.2)] }

/-- The net-demand computation of `optimize_depot_allocation` (lines 43-47):
`net_demand = max(0, demand - site_inventory.get(site_id, 0))` per site. -/
def netDemands (site_demands : List (String × Int)) (site_inventory : String → Int) :
    List (String × Int) :=
  site_demands.map (fun p => (p.1, max 0 (p.2 - site_inventory p.1)))

/-- `DepotOptimizer.optimize_depot_allocation` (lines 14-93).  Dicts are
association lists with distinct keys in insertion order; `site_inventory`
is read through `.get(site_id, 0)` and so is a total function. -/
def optimize_depot_allocation (site_demands : List (String × Int))
    (depot_inventory : List (String × Int)) (site_inventory : String → Int)
    (lead_times : String → String → Option Int)
    (shipping_costs : Option (String → String → Option ℚ)) : AllocationPlan :=
  let net_demands := netDemands site_demands site_inventory
  let sorted_sites := pysortBy (fun a b => decide (b.2 ≤ a.2)) net_demands
  let final := sorted_sites.foldl (allocStep lead_times shipping_costs)
    { allocations := [], total_allocated := 0, unmet_demand := []
      remaining_depot_inv := depot_inventory }
  let total_demand : Int := (net_demands.map Prod.snd).sum
  { allocations := final.allocations
    total_allocated := final.total_allocated
    unmet_demand := final.unmet_demand
    excess_inventory := final.remaining_depot_inv.filter (fun p => decide (0 < p.2))
    optimization_score :=
      if 0 < total_demand then
        fmul (fdiv (intToFloat final.total_allocated) (intToFloat total_demand)) (intToFloat 100)
      else 0 }

/-! ## `Orchestrator.run` (lines 201-520), steps 3-7

Data loading, feature computation, waste analysis, temperature excursions
and JSONL output are external collaborators (out of the specified core);
the model starts from the computed site-feature rows. -/

/-- A result entry after the enrichment loop (lines 384-459); only the
enrichment field the later pipeline reads (`current_inventory`) is kept.
`none` models a result row that found no matching feature row. -/
structure EnrichedResult where
  decision : Decision
  current_inventory : Option Int
deriving Repr, DecidableEq

/-- Enrichment of one result (lines 385-448): find the first feature row
with the result's site id and copy its inventory. -/
def enrichResult (sites_list : List Site) (d : Decision) : EnrichedResult :=
  match sites_list.find? (fun r => r.site_id = d.site_id) with
  | some row => { decision := d, current_inventory := some row.current_inventory }
  | none => { decision := d, current_inventory := none }

/-- The `site_demands` dict of step 7 (line 472): quantity per site over
the results whose action is `resupply`. -/
def depot_site_demands (results : List EnrichedResult) : List (String × Int) :=
  dictOf (results.filterMap (fun r =>
    if r.decision.action = "resupply" then some (r.decision.site_id, r.decision.quantity)
    else none))

/-- The `site_inventory` dict of step 7 (line 473). -/
def depot_site_inventory (results : List EnrichedResult) : List (String × Int) :=
  dictOf (results.map (fun r => (r.decision.site_id, r.current_inventory.getD 0)))

/-- The synthetic depot of step 7 (line 477): `DEPOT_001` holding twice the
total demanded quantity. -/
def depot_inventory_placeholder (results : List EnrichedResult) : List (String × Int) :=
  [("DEPOT_001", ((depot_site_demands results).map Prod.snd).sum * 2)]

/-- The uniform lead-time table of step 7 (lines 478-479): 7 days from the
synthetic depot to every demand site. -/
def depot_lead_times (results : List EnrichedResult) : String → String → Option Int :=
  fun depot_id site_id =>
    if depot_id = "DEPOT_001" &&
        ((depot_site_demands results).map Prod.fst).contains site_id then some 7
    else none

/-- Step 7 of `Orchestrator.run` (lines 468-484): build the synthetic depot
inputs from the enriched results and run the optimizer (only when there is
at least one result). -/
def run_depot_step (results : List EnrichedResult) : Option AllocationPlan :=
  if results.isEmpty then none
  else
    some (optimize_depot_allocation (depot_site_demands results)
      (depot_inventory_placeholder results)
      (fun s => (alookup s (depot_site_inventory results)).getD 0)
      (depot_lead_times results) none)

/-- The output of one orchestrator run (the parts of the returned
dictionary the claims concern). -/
structure RunOutput where
  results : List EnrichedResult
  depot_optimization : Option AllocationPlan
  llm_failure_count : Nat
deriving Repr, DecidableEq

/-- `Orchestrator.run`, steps 3-7: sort by priority, classify each site to
the reasoning or the rule lane, process the reasoning lane in batches
(`USE_BATCH_API` and size > 1) or individually, process the rule lane, then
enrich and run the depot step.  Parallel fan-out is modelled in submission
order (see the module comment); the failure counter is threaded exactly as
the source mutates it. -/
def orchestrator_run (cfg : Config) (st : OrchestratorState) (oracle : LLMOracle)
    (sites : List Site) : RunOutput :=
  let sorted := sortSites sites
  let llm_sites := classified_llm_sites cfg st sites
  let rules_sites := classified_rules_sites cfg st sites
  let use_batch_api := cfg.USE_BATCH_API && st.llm_available
  let processed :=
    if use_batch_api && decide (1 < cfg.BATCH_API_SIZE) then
      (chunkList cfg.BATCH_API_SIZE llm_sites).foldl
        (fun acc batch =>
          let step := process_sites_batch_llm cfg st.llm_available oracle acc.2 batch
          (acc.1 ++ step.1, step.2))
        ([], st.llm_failure_count)
    else
      llm_sites.foldl
        (fun acc row =>
          let step := process_site_individual_llm cfg st.llm_available oracle acc.2 row
          (acc.1 ++ [step.1], step.2))
        ([], st.llm_failure_count)
  let results := processed.1 ++ rules_sites.map (process_site_with_rules cfg)
  let enriched := results.map (enrichResult sorted)
  { results := enriched
    depot_optimization := run_depot_step enriched
    llm_failure_count := processed.2 }

/-! ## Supporting lemmas: list machinery -/

theorem enumFrom_map_snd (l : List α) : ∀ i, (enumFrom i l).map Prod.snd = l := by
  induction l with
  | nil => intro i; rfl
  | cons a as ih => intro i; simp [enumFrom, ih]

theorem chunkAux_flatten (n : Nat) (hn : n ≠ 0) :
    ∀ fuel (l : List α), l.length ≤ fuel → (chunkAux n fuel l).flatten = l := by
  intro fuel
  induction fuel with
  | zero =>
    intro l hl
    have : l = [] := List.length_eq_zero.mp (Nat.le_zero.mp hl)
    subst this; rfl
  | succ fuel ih =>
    intro l hl
    match l with
    | [] => rfl
    | a :: as =>
      have hdrop : ((a :: as).drop n).length ≤ fuel := by
        rw [List.length_drop]
        simp only [List.length_cons] at hl ⊢
        omega
      calc (chunkAux n (fuel+1) (a :: as)).flatten
          = (a :: as).take n ++ (chunkAux n fuel ((a :: as).drop n)).flatten := by
            simp [chunkAux]
        _ = (a :: as).take n ++ (a :: as).drop n := by rw [ih _ hdrop]
        _ = a :: as := List.take_append_drop n (a :: as)

theorem alookup_dictInsert_self (m : List (String × α)) (k : String) (v : α) :
    alookup k (dictInsert m k v) = some v := by
  induction m with
  | nil => simp [dictInsert, alookup]
  | cons p rest ih =>
    obtain ⟨k', v'⟩ := p
    by_cases h : k' = k
    · simp [dictInsert, h, alookup]
    · simp [dictInsert, h, alookup, ih]

theorem alookup_dictInsert_ne (m : List (String × α)) (k k' : String) (v : α)
    (h : k' ≠ k) : alookup k' (dictInsert m k v) = alookup k' m := by
  have h' : ¬ k = k' := fun hh => h hh.symm
  induction m with
  | nil => simp [dictInsert, alookup, h']
  | cons p rest ih =>
    obtain ⟨k₀, v₀⟩ := p
    by_cases hp : k₀ = k
    · subst hp
      simp [dictInsert, alookup, h']
    · by_cases hp' : k₀ = k'
      · simp [dictInsert, hp, alookup, hp', h, ih]
      · simp [dictInsert, hp, alookup, hp', ih]

theorem dictInsert_not_mem (m : List (String × α)) (k : String) (v : α)
    (h : ¬ k ∈ m.map Prod.fst) : dictInsert m k v = m ++ [(k, v)] := by
  induction m with
  | nil => rfl
  | cons p rest ih =>
    obtain ⟨k₀, v₀⟩ := p
    simp only [List.map_cons, List.mem_cons] at h
    push_neg at h
    have hne : ¬ k₀ = k := fun hh => h.1 hh.symm
    simp [dictInsert, hne, ih h.2]

theorem dictOf_nodup_keys (l : List (String × α)) (h : (l.map Prod.fst).Nodup) :
    dictOf l = l := by
  suffices haux : ∀ m : List (String × α),
      (∀ k ∈ m.map Prod.fst, ¬ k ∈ l.map Prod.fst) →
      l.foldl (fun acc kv => dictInsert acc kv.1 kv.2) m = m ++ l by
    simpa using haux [] (by simp)
  induction l with
  | nil => intro m _; simp [dictOf]
  | cons p rest ih =>
    intro m hdisj
    simp only [List.map_cons, List.nodup_cons] at h
    have hins : dictInsert m p.1 p.2 = m ++ [p] := by
      rw [dictInsert_not_mem]
      intro hmem
      exact hdisj p.1 hmem (by simp)
    simp only [List.foldl_cons, hins]
    rw [ih h.2 (m ++ [p])]
    · simp
    · intro k hk
      simp only [List.map_append, List.mem_append] at hk
      rcases hk with hk | hk
      · intro hmem
        exact hdisj k hk (by simp [hmem])
      · simp only [List.map_cons, List.mem_cons] at hk
        rcases hk with hk | hk
        · subst hk
          simpa using h.1
        · simp at hk

/-! ## Supporting lemmas: shape of the processing functions -/

theorem enrichResult_decision (sites_list : List Site) (d : Decision) :
    (enrichResult sites_list d).decision = d := by
  unfold enrichResult
  cases sites_list.find? (fun r => r.site_id = d.site_id) <;> rfl

theorem process_site_with_rules_site_id (cfg : Config) (s : Site) :
    (process_site_with_rules cfg s).site_id = s.site_id := rfl

theorem process_site_with_rules_llm_used (cfg : Config) (s : Site) :
    (process_site_with_rules cfg s).llm_used = false := rfl

theorem process_site_individual_llm_site_id (cfg : Config) (hc : Bool) (oracle : LLMOracle)
    (c : Nat) (s : Site) :
    (process_site_individual_llm cfg hc oracle c s).1.site_id = s.site_id := by
  unfold process_site_individual_llm
  cases hc with
  | false => rfl
  | true => cases oracle.single s <;> rfl

theorem process_site_individual_llm_fst_indep (cfg : Config) (hc : Bool) (oracle : LLMOracle)
    (c c' : Nat) (s : Site) :
    (process_site_individual_llm cfg hc oracle c s).1 =
      (process_site_individual_llm cfg hc oracle c' s).1 := by
  unfold process_site_individual_llm
  cases hc with
  | false => rfl
  | true => cases oracle.single s <;> rfl

theorem process_sites_batch_llm_fst_indep (cfg : Config) (hc : Bool) (oracle : LLMOracle)
    (c c' : Nat) (b : List Site) :
    (process_sites_batch_llm cfg hc oracle c b).1 =
      (process_sites_batch_llm cfg hc oracle c' b).1 := by
  unfold process_sites_batch_llm
  cases hc with
  | false => rfl
  | true =>
    cases hb : b.isEmpty
    · simp only [Bool.not_true, Bool.false_or, hb]
      cases oracle.batch b <;> rfl
    · simp [hb]

theorem enumFrom_map_batch_ids (cfg : Config) (rs : List GeminiResult) :
    ∀ (b : List Site) (i : Nat),
    ((enumFrom i b).map (fun p =>
        Decision.site_id (match rs.get? p.1 with
        | some g =>
            { site_id := p.2.site_id, action := g.structured_result.action
              quantity := g.structured_result.quantity
              confidence := g.structured_result.confidence
              reason := g.draft_message, llm_used := true }
        | none => process_site_with_rules cfg p.2))) = b.map Site.site_id := by
  intro b
  induction b with
  | nil => intro i; rfl
  | cons a as ih =>
    intro i
    simp only [enumFrom, List.map_cons, ih]
    congr 1
    cases rs.get? i <;> rfl

theorem process_sites_batch_llm_ids (cfg : Config) (oracle : LLMOracle)
    (c : Nat) (b : List Site) :
    ((process_sites_batch_llm cfg true oracle c b).1.map Decision.site_id) =
      b.map Site.site_id := by
  unfold process_sites_batch_llm
  cases hb : b.isEmpty
  · simp only [Bool.not_true, Bool.false_or, hb, Bool.false_eq_true, if_false]
    cases oracle.batch b with
    | error e => simp [process_site_with_rules_site_id]
    | ok rs =>
      simp only [List.map_map]
      exact enumFrom_map_batch_ids cfg rs b 0
  · simp [hb, List.isEmpty_iff.mp hb]

/-! ## Decomposition of `orchestrator_run`'s result list -/

theorem foldl_batch_decomp (cfg : Config) (hc : Bool) (oracle : LLMOracle) :
    ∀ (chunks : List (List Site)) (acc : List Decision) (c : Nat),
    (chunks.foldl
      (fun acc batch =>
        let step := process_sites_batch_llm cfg hc oracle acc.2 batch
        (acc.1 ++ step.1, step.2)) (acc, c)).1 =
    acc ++ chunks.flatMap (fun b => (process_sites_batch_llm cfg hc oracle 0 b).1) := by
  intro chunks
  induction chunks with
  | nil => intro acc c; simp
  | cons b rest ih =>
    intro acc c
    simp only [List.foldl_cons, List.flatMap_cons]
    rw [ih]
    rw [process_sites_batch_llm_fst_indep cfg hc oracle c 0 b]
    simp

theorem foldl_indiv_decomp (cfg : Config) (hc : Bool) (oracle : LLMOracle) :
    ∀ (sites : List Site) (acc : List Decision) (c : Nat),
    (sites.foldl
      (fun acc row =>
        let step := process_site_individual_llm cfg hc oracle acc.2 row
        (acc.1 ++ [step.1], step.2)) (acc, c)).1 =
    acc ++ sites.map (fun s => (process_site_individual_llm cfg hc oracle 0 s).1) := by
  intro sites
  induction sites with
  | nil => intro acc c; simp
  | cons s rest ih =>
    intro acc c
    simp only [List.foldl_cons, List.map_cons]
    rw [ih]
    rw [process_site_individual_llm_fst_indep cfg hc oracle c 0 s]
    simp

/-- The decisions of a run, before enrichment, as an explicit list. -/
def run_decisions (cfg : Config) (st : OrchestratorState) (oracle : LLMOracle)
    (sites : List Site) : List Decision :=
  (if cfg.USE_BATCH_API && st.llm_available && decide (1 < cfg.BATCH_API_SIZE) then
    (chunkList cfg.BATCH_API_SIZE (classified_llm_sites cfg st sites)).flatMap
      (fun b => (process_sites_batch_llm cfg st.llm_available oracle 0 b).1)
  else
    (classified_llm_sites cfg st sites).map
      (fun s => (process_site_individual_llm cfg st.llm_available oracle 0 s).1)) ++
  (classified_rules_sites cfg st sites).map (process_site_with_rules cfg)

theorem orchestrator_run_results_eq (cfg : Config) (st : OrchestratorState)
    (oracle : LLMOracle) (sites : List Site) :
    (orchestrator_run cfg st oracle sites).results =
      (run_decisions cfg st oracle sites).map (enrichResult (sortSites sites)) := by
  unfold orchestrator_run run_decisions
  simp only []
  by_cases hmode : cfg.USE_BATCH_API && st.llm_available && decide (1 < cfg.BATCH_API_SIZE)
  · have hmode' : (cfg.USE_BATCH_API && st.llm_available) && decide (1 < cfg.BATCH_API_SIZE) :=
      by simpa [Bool.and_assoc] using hmode
    simp only [hmode, hmode', if_true]
    rw [foldl_batch_decomp]
    simp
  · have hmode' : ¬ ((cfg.USE_BATCH_API && st.llm_available) && decide (1 < cfg.BATCH_API_SIZE)) :=
      by simpa [Bool.and_assoc] using hmode
    rw [Bool.not_eq_true] at hmode hmode'
    simp only [hmode, hmode', Bool.false_eq_true, if_false]
    rw [foldl_indiv_decomp]
    simp

theorem run_decisions_ids_perm (cfg : Config) (st : OrchestratorState)
    (oracle : LLMOracle) (sites : List Site) :
    List.Perm ((run_decisions cfg st oracle sites).map Decision.site_id)
      (sites.map Site.site_id) := by
  unfold run_decisions
  rw [List.map_append]
  have hrules : ((classified_rules_sites cfg st sites).map (process_site_with_rules cfg)).map
      Decision.site_id = (classified_rules_sites cfg st sites).map Site.site_id := by
    rw [List.map_map]; rfl
  have hllm : ((if cfg.USE_BATCH_API && st.llm_available && decide (1 < cfg.BATCH_API_SIZE) then
      (chunkList cfg.BATCH_API_SIZE (classified_llm_sites cfg st sites)).flatMap
        (fun b => (process_sites_batch_llm cfg st.llm_available oracle 0 b).1)
    else
      (classified_llm_sites cfg st sites).map
        (fun s => (process_site_individual_llm cfg st.llm_available oracle 0 s).1)).map
      Decision.site_id) = (classified_llm_sites cfg st sites).map Site.site_id := by
    by_cases hmode : cfg.USE_BATCH_API && st.llm_available && decide (1 < cfg.BATCH_API_SIZE)
    · simp only [hmode, if_true]
      have havail : st.llm_available = true := by
        rcases Bool.and_eq_true_iff.mp (Bool.and_eq_true_iff.mp hmode).1 with ⟨_, h2⟩
        exact h2
      have hsize : cfg.BATCH_API_SIZE ≠ 0 := by
        have := of_decide_eq_true (Bool.and_eq_true_iff.mp hmode).2
        omega
      rw [List.map_flatMap]
      have heach : ∀ b : List Site,
          ((process_sites_batch_llm cfg st.llm_available oracle 0 b).1.map Decision.site_id) =
            b.map Site.site_id := by
        intro b; rw [havail]; exact process_sites_batch_llm_ids cfg oracle 0 b
      calc ((chunkList cfg.BATCH_API_SIZE (classified_llm_sites cfg st sites)).flatMap
            fun b => ((process_sites_batch_llm cfg st.llm_available oracle 0 b).1.map
              Decision.site_id))
          = (chunkList cfg.BATCH_API_SIZE (classified_llm_sites cfg st sites)).flatMap
              (fun b => b.map Site.site_id) := by
            apply List.flatMap_congr
            intro b _
            exact heach b
        _ = ((chunkList cfg.BATCH_API_SIZE (classified_llm_sites cfg st sites)).flatMap id).map
              Site.site_id := by
            rw [List.map_flatMap]
            apply List.flatMap_congr
            intro b _
            rfl
        _ = (classified_llm_sites cfg st sites).map Site.site_id := by
            rw [List.flatMap_id]
            unfold chunkList
            rw [chunkAux_flatten _ hsize _ _ (Nat.le_refl _)]
    · rw [Bool.not_eq_true] at hmode
      simp only [hmode, Bool.false_eq_true, if_false]
      rw [List.map_map]
      apply List.map_congr_left
      intro s _
      exact process_site_individual_llm_site_id cfg st.llm_available oracle 0 s
  rw [hrules, hllm, ← List.map_append]
  have hpart : List.Perm
      (classified_llm_sites cfg st sites ++ classified_rules_sites cfg st sites)
      (sortSites sites) := List.filter_append_perm _ (sortSites sites)
  exact (hpart.map Site.site_id).trans ((pysortBy_perm _ sites).map Site.site_id)

/-! ## Supporting lemmas: shape of rule-lane decisions -/

theorem recommend_resupply_bounds (cfg : Config) (s : Site) :
    ((recommend_resupply cfg s).action = "no_resupply" →
      (recommend_resupply cfg s).quantity = 0) ∧
    ((recommend_resupply cfg s).action = "resupply" →
      cfg.MIN_ORDER_QUANTITY ≤ (recommend_resupply cfg s).quantity) := by
  unfold recommend_resupply
  dsimp only
  split
  · exact ⟨fun hc => by simp at hc, fun _ => le_max_left _ _⟩
  · split
    · exact ⟨fun hc => by simp at hc, fun _ => le_max_left _ _⟩
    · exact ⟨fun _ => rfl, fun hc => by simp at hc⟩

theorem process_site_with_rules_bounds (cfg : Config) (s : Site) :
    ((process_site_with_rules cfg s).action = "no_resupply" →
      (process_site_with_rules cfg s).quantity = 0) ∧
    ((process_site_with_rules cfg s).action = "resupply" →
      cfg.MIN_ORDER_QUANTITY ≤ (process_site_with_rules cfg s).quantity) :=
  recommend_resupply_bounds cfg s

/-- Every decision of a run that is not marked `llm_used` is literally a
`_process_site_with_rules` output for some site. -/
theorem run_decisions_rule_shape (cfg : Config) (st : OrchestratorState)
    (oracle : LLMOracle) (sites : List Site) (d : Decision)
    (hd : d ∈ run_decisions cfg st oracle sites) (hrule : d.llm_used = false) :
    ∃ s : Site, d = process_site_with_rules cfg s := by
  unfold run_decisions at hd
  rw [List.mem_append] at hd
  rcases hd with hd | hd
  · by_cases hmode : cfg.USE_BATCH_API && st.llm_available && decide (1 < cfg.BATCH_API_SIZE)
    · rw [if_pos hmode] at hd
      rw [List.mem_flatMap] at hd
      obtain ⟨b, _, hb⟩ := hd
      unfold process_sites_batch_llm at hb
      by_cases hguard : !st.llm_available || b.isEmpty
      · rw [if_pos hguard] at hb
        simp at hb
      · rw [if_neg hguard] at hb
        cases horacle : oracle.batch b with
        | ok rs =>
          rw [horacle] at hb
          simp only [List.mem_map] at hb
          obtain ⟨p, _, hp⟩ := hb
          cases hget : rs.get? p.1 with
          | some g =>
            rw [hget] at hp
            rw [← hp] at hrule
            simp at hrule
          | none =>
            rw [hget] at hp
            exact ⟨p.2, hp.symm⟩
        | error msg =>
          rw [horacle] at hb
          simp only [List.mem_map] at hb
          obtain ⟨s, _, hs⟩ := hb
          exact ⟨s, hs.symm⟩
    · rw [if_neg hmode] at hd
      rw [List.mem_map] at hd
      obtain ⟨s, _, hs⟩ := hd
      unfold process_site_individual_llm at hs
      cases havail : st.llm_available with
      | false =>
        rw [havail] at hs
        exact ⟨s, hs.symm⟩
      | true =>
        rw [havail] at hs
        cases horacle : oracle.single s with
        | ok g =>
          rw [horacle] at hs
          simp only [Bool.not_true, Bool.false_eq_true, if_false] at hs
          rw [← hs] at hrule
          simp at hrule
        | error msg =>
          rw [horacle] at hs
          simp only [Bool.not_true, Bool.false_eq_true, if_false] at hs
          exact ⟨s, hs.symm⟩
  · rw [List.mem_map] at hd
    obtain ⟨s, _, hs⟩ := hd
    exact ⟨s, hs.symm⟩

theorem should_use_llm_unavailable (cfg : Config) (st : OrchestratorState) (s : Site)
    (h : st.llm_available = false) : should_use_llm cfg st s = false := by
  unfold should_use_llm
  simp [h]

/-! ## Concrete fixtures used by witnesses and counterexamples -/

/-- An urgent site (always routed to the reasoning lane by the default
selective thresholds): demand 100, inventory 50, 60 days to expiry,
urgency 2.0.  Also the input of the spec's RuleEngine example. -/
def siteA : Site :=
  { site_id := "A", projected_30d_demand := 100, current_inventory := 50
    days_to_expiry := 60, urgency_score := Rat.divInt 2 1 }

/-- A routine site (rule lane under the default selective thresholds). -/
def siteB : Site :=
  { site_id := "B", projected_30d_demand := 10, current_inventory := 90
    days_to_expiry := 200, urgency_score := Rat.divInt 1 10 }

/-- A fresh orchestrator with a working client and no failures yet. -/
def st0 : OrchestratorState := { llm_available := true, llm_failure_count := 0 }

/-- An oracle whose every call raises. -/
def oracleFail : LLMOracle :=
  { single := fun _ => Except.error "connection error"
    batch := fun _ => Except.error "connection error" }

/-- The default configuration with batching disabled (individual calls). -/
def cfgIndividual : Config := { defaultConfig with USE_BATCH_API := false }

/-- An oracle that answers every single call with a well-formed response
recommending `resupply` of 5 kits. -/
def oracleQty5 : LLMOracle :=
  { single := fun _ => Except.ok
      { structured_result :=
          { action := "resupply", quantity := 5, confidence := Rat.divInt 9 10
            reasons := ["model says 5"] }
        draft_message := "Resupply 5 kits." }
    batch := fun _ => Except.error "unused" }

/-- A featureless site used for the circuit-breaker scenario. -/
def mkPlain (id : String) : Site :=
  { site_id := id, projected_30d_demand := 100, current_inventory := 50
    days_to_expiry := 60, urgency_score := Rat.divInt 0 1 }

/-- Five sites processed in order S1..S5. -/
def c4sites : List Site := [mkPlain "S1", mkPlain "S2", mkPlain "S3", mkPlain "S4", mkPlain "S5"]

/-- Selective routing off, batching off: the configuration under which the
classification consults the failure counter. -/
def cfgNoSelective : Config :=
  { defaultConfig with USE_SELECTIVE_LLM := false, USE_BATCH_API := false }

/-- A well-formed reasoning response. -/
def recoveredResult : GeminiResult :=
  { structured_result :=
      { action := "resupply", quantity := 40, confidence := Rat.divInt 9 10
        reasons := ["recovered"] }
    draft_message := "Resupply 40 kits." }

/-- An oracle that fails on S1..S4 and succeeds on S5. -/
def oracleFailThenOk : LLMOracle :=
  { single := fun s => if s.site_id = "S5" then Except.ok recoveredResult else Except.error "503"
    batch := fun _ => Except.error "503" }

/-! ## Claims -/

/-- C1: for every run, the merged result set contains exactly one Decision
per input site: under any configuration (batch, individual — the parallel
and sequential fan-outs produce the same multiset, covered by quantifying
over every permutation `out` of the result list — and rules-only via
`llm_available = false`), every `site_id` of the input features occurs
exactly once among the produced decisions; degraded results are
substituted, never dropped or duplicated. -/
theorem claim_C1 (cfg : Config) (st : OrchestratorState) (oracle : LLMOracle)
    (sites : List Site) (out : List Decision)
    (hnodup : (sites.map Site.site_id).Nodup)
    (hout : List.Perm out
      ((orchestrator_run cfg st oracle sites).results.map (fun e => e.decision)))
    (sid : String) (hsid : sid ∈ sites.map Site.site_id) :
    (out.map Decision.site_id).count sid = 1 := by
  have hdec : ((orchestrator_run cfg st oracle sites).results.map (fun e => e.decision))
      = run_decisions cfg st oracle sites := by
    rw [orchestrator_run_results_eq, List.map_map]
    have hco : ((fun e : EnrichedResult => e.decision) ∘ enrichResult (sortSites sites)) = id := by
      funext d; exact enrichResult_decision _ d
    rw [hco, List.map_id]
  have hperm : List.Perm (out.map Decision.site_id) (sites.map Site.site_id) := by
    refine (hout.map Decision.site_id).trans ?_
    rw [hdec]
    exact run_decisions_ids_perm cfg st oracle sites
  rw [hperm.count_eq]
  exact List.count_eq_one_of_mem hnodup hsid

theorem claim_C1_witness :
    (([siteA, siteB].map Site.site_id).Nodup ∧ "A" ∈ [siteA, siteB].map Site.site_id) ∧
    ((((orchestrator_run defaultConfig st0 oracleFail [siteA, siteB]).results.map
      (fun e => e.decision)).map Decision.site_id).count "A" = 1) :=
  ⟨⟨by decide, by decide⟩,
    claim_C1 defaultConfig st0 oracleFail [siteA, siteB] _ (by decide)
      (List.Perm.refl _) "A" (by decide)⟩

set_option maxRecDepth 8000 in
/-- C2 counterexample: a run whose reasoning lane returns a well-formed
response with `action = "resupply"` and `quantity = 5` emits that decision
unvalidated, violating `resupply ⇒ quantity ≥ min_order_quantity (10)`. -/
theorem claim_C2_counterexample :
    ((orchestrator_run cfgIndividual st0 oracleQty5 [siteA]).results.map
      (fun e => (e.decision.action, e.decision.quantity, e.decision.llm_used))) =
      [("resupply", 5, true)] ∧
    cfgIndividual.MIN_ORDER_QUANTITY = 10 ∧ ¬ ((10 : Int) ≤ 5) := by decide

/-- C2 (amended): the quantity invariant — `no_resupply ⇒ quantity = 0` and
`resupply ⇒ quantity ≥ min_order_quantity` — holds for every rule-lane
decision of a run (`llm_used = false`); reasoning-lane decisions carry the
remote model's action and quantity unvalidated. -/
theorem claim_C2 (cfg : Config) (st : OrchestratorState) (oracle : LLMOracle)
    (sites : List Site) (e : EnrichedResult)
    (he : e ∈ (orchestrator_run cfg st oracle sites).results)
    (hrule : e.decision.llm_used = false) :
    (e.decision.action = "no_resupply" → e.decision.quantity = 0) ∧
    (e.decision.action = "resupply" → cfg.MIN_ORDER_QUANTITY ≤ e.decision.quantity) := by
  rw [orchestrator_run_results_eq] at he
  rw [List.mem_map] at he
  obtain ⟨d, hd, hde⟩ := he
  have hdec : e.decision = d := by rw [← hde]; exact enrichResult_decision _ d
  rw [hdec] at hrule ⊢
  obtain ⟨s, hs⟩ := run_decisions_rule_shape cfg st oracle sites d hd hrule
  rw [hs]
  exact process_site_with_rules_bounds cfg s

set_option maxRecDepth 8000 in
theorem claim_C2_witness :
    ((enrichResult (sortSites [siteA]) (process_site_with_rules cfgIndividual siteA)) ∈
      (orchestrator_run cfgIndividual st0 oracleFail [siteA]).results ∧
     (process_site_with_rules cfgIndividual siteA).llm_used = false) ∧
    (((enrichResult (sortSites [siteA])
        (process_site_with_rules cfgIndividual siteA)).decision.action = "no_resupply" →
      (enrichResult (sortSites [siteA])
        (process_site_with_rules cfgIndividual siteA)).decision.quantity = 0) ∧
     ((enrichResult (sortSites [siteA])
        (process_site_with_rules cfgIndividual siteA)).decision.action = "resupply" →
      cfgIndividual.MIN_ORDER_QUANTITY ≤
        (enrichResult (sortSites [siteA])
          (process_site_with_rules cfgIndividual siteA)).decision.quantity)) :=
  ⟨⟨by decide, by decide⟩,
    claim_C2 cfgIndividual st0 oracleFail [siteA] _ (by decide) (by decide)⟩

/-- C3 counterexample: on demand 100, inventory 50, 60 days to expiry with
the default configuration, the code does not return quantity 70. -/
theorem claim_C3_counterexample :
    (recommend_resupply defaultConfig siteA).quantity ≠ 70 := by decide

/-- C3 (amended): with the default configuration the RuleEngine on
demand 100, inventory 50, 60 days to expiry computes
`safety_stock = int(100 × (1.2 − 1)) = int(19.999999999999996) = 19` under
binary64 float arithmetic (not the exact 20), decides `resupply` (since
100 > 50 + 19 = 69), and returns `quantity = max(10, 100 + 19 − 50) = 69`
(not 70). -/
theorem claim_C3 :
    safety_stock_calc defaultConfig 100 = 19 ∧
    (recommend_resupply defaultConfig siteA).action = "resupply" ∧
    (recommend_resupply defaultConfig siteA).quantity = 69 := by decide

set_option maxRecDepth 8000 in
/-- C4 counterexample: with selective routing disabled (the one mode whose
classification consults the failure counter), an oracle failing on S1..S4
drives the consecutive-failure counter to 4 — beyond the budget of 3 — yet
the remaining site S5 is still sent to the reasoning lane and comes back
`llm_used = true` (the counter then resets to 0): sites already classified
are never rerouted mid-run, so "every remaining site is forced to the rule
lane" is false. -/
theorem claim_C4_counterexample :
    ((orchestrator_run cfgNoSelective st0 oracleFailThenOk c4sites).results.map
      (fun e => (e.decision.site_id, e.decision.llm_used))) =
      [("S1", false), ("S2", false), ("S3", false), ("S4", false), ("S5", true)] ∧
    (orchestrator_run cfgNoSelective st0 oracleFailThenOk c4sites).llm_failure_count = 0 := by
  decide

/-- C4 (amended): the failure counter is consulted only at classification
time, and only when selective routing is disabled (or the client is
unavailable); there a site goes to the reasoning lane iff the counter is
strictly below the budget (so the rule lane is forced once the counter
*reaches* 3, not when it exceeds it), and the counter resets to zero on the
next reasoning success. -/
theorem claim_C4 (cfg : Config) (st : OrchestratorState) (s site : Site)
    (oracle : LLMOracle) (count : Nat) (g : GeminiResult)
    (havail : st.llm_available = true) (hsel : cfg.USE_SELECTIVE_LLM = false)
    (hok : oracle.single site = Except.ok g) :
    (should_use_llm cfg st s = true ↔ st.llm_failure_count < st.max_llm_failures) ∧
    (process_site_individual_llm cfg true oracle count site).2 = 0 := by
  constructor
  · unfold should_use_llm
    simp [hsel, havail]
  · unfold process_site_individual_llm
    simp [hok]

theorem claim_C4_witness :
    (st0.llm_available = true ∧ cfgNoSelective.USE_SELECTIVE_LLM = false ∧
     oracleFailThenOk.single (mkPlain "S5") = Except.ok recoveredResult) ∧
    ((should_use_llm cfgNoSelective st0 (mkPlain "S1") = true ↔
        st0.llm_failure_count < st0.max_llm_failures) ∧
     (process_site_individual_llm cfgNoSelective true oracleFailThenOk 4 (mkPlain "S5")).2 = 0) :=
  ⟨⟨by decide, by decide, by rfl⟩,
    claim_C4 cfgNoSelective st0 (mkPlain "S1") (mkPlain "S5") oracleFailThenOk 4
      recoveredResult (by decide) (by decide) (by rfl)⟩

/-- C9: with no credentials configured, client construction raises
(`ValueError`), the orchestrator construction falls back to rule-only mode
(`llm_available = false`), and a rule-only run produces exactly one
rule-lane decision per sorted input site (it is a total function — nothing
raises — and covers every site). -/
theorem claim_C9 (cfg : Config) (oracle : LLMOracle) (sites : List Site) (n m : Nat) :
    (∃ msg, gemini_client_init [] = Except.error msg) ∧
    (orchestrator_init []).llm_available = false ∧
    ((orchestrator_run cfg { llm_available := false, llm_failure_count := n, max_llm_failures := m }
        oracle sites).results.map (fun e => e.decision)) =
      (sortSites sites).map (process_site_with_rules cfg) ∧
    (orchestrator_run cfg { llm_available := false, llm_failure_count := n, max_llm_failures := m }
        oracle sites).results.length = sites.length := by
  refine ⟨⟨_, rfl⟩, rfl, ?_, ?_⟩
  all_goals {
    have hfalse : ∀ s : Site, should_use_llm cfg
        { llm_available := false, llm_failure_count := n, max_llm_failures := m } s = false :=
      fun s => should_use_llm_unavailable cfg _ s rfl
    have hllm : classified_llm_sites cfg
        { llm_available := false, llm_failure_count := n, max_llm_failures := m } sites = [] := by
      unfold classified_llm_sites
      simp [hfalse]
    have hrules : classified_rules_sites cfg
        { llm_available := false, llm_failure_count := n, max_llm_failures := m } sites =
        sortSites sites := by
      unfold classified_rules_sites
      simp [hfalse]
    have hres : ((orchestrator_run cfg
        { llm_available := false, llm_failure_count := n, max_llm_failures := m }
        oracle sites).results.map (fun e => e.decision)) =
        (sortSites sites).map (process_site_with_rules cfg) := by
      rw [orchestrator_run_results_eq, List.map_map]
      have hco : ((fun e : EnrichedResult => e.decision) ∘ enrichResult (sortSites sites)) = id := by
        funext d; exact enrichResult_decision _ d
      rw [hco, List.map_id]
      unfold run_decisions
      rw [hllm, hrules]
      simp
    first
      | exact hres
      | {
          have hlen := congrArg List.length hres
          simp only [List.length_map] at hlen
          have : (orchestrator_run cfg
              { llm_available := false, llm_failure_count := n, max_llm_failures := m }
              oracle sites).results.length =
              ((orchestrator_run cfg
                { llm_available := false, llm_failure_count := n, max_llm_failures := m }
                oracle sites).results.map (fun e => e.decision)).length := by simp
          rw [this, hres]
          simp only [List.length_map]
          exact ((pysortBy_perm _ sites).length_eq)
        }
  }

/-! ## Supporting lemmas: the float model -/

theorem log2fuel_le (fuel : Nat) : ∀ n, 1 ≤ n → n ≤ fuel → 2 ^ log2fuel fuel n ≤ n := by
  induction fuel with
  | zero => intro n h1 h2; omega
  | succ fuel ih =>
    intro n h1 h2
    by_cases hn : n ≤ 1
    · have : n = 1 := by omega
      subst this
      simp [log2fuel]
    · have hrec : log2fuel (fuel+1) n = log2fuel fuel (n / 2) + 1 := by
        simp [log2fuel, hn]
      rw [hrec]
      have h2' : 1 ≤ n / 2 := by omega
      have h3' : n / 2 ≤ fuel := by omega
      have hih := ih (n / 2) h2' h3'
      calc 2 ^ (log2fuel fuel (n / 2) + 1) = 2 ^ log2fuel fuel (n / 2) * 2 := by ring
        _ ≤ (n / 2) * 2 := Nat.mul_le_mul_right 2 hih
        _ ≤ n := by omega

theorem bitLen_le (n : Nat) (h : 1 ≤ n) : 2 ^ (bitLen n - 1) ≤ n := by
  unfold bitLen
  rw [if_neg (by omega)]
  simpa using log2fuel_le n n h (Nat.le_refl n)

theorem bitLen_one_le (n : Nat) (h : 1 ≤ n) : 1 ≤ bitLen n := by
  unfold bitLen
  rw [if_neg (by omega)]
  omega

theorem roundMantissa_one_le (N D : Int) (hD : 0 < D) (hND : D ≤ N) :
    1 ≤ roundMantissa N D := by
  unfold roundMantissa
  have hf : 1 ≤ N.fdiv D := by
    rw [Int.fdiv_eq_ediv N (le_of_lt hD)]
    rw [Int.le_ediv_iff_mul_le hD]
    omega
  dsimp only
  split
  · exact hf
  · split
    · omega
    · split <;> omega

/-- For a positive integer `T`, the exponent chosen by `ratLog2Pair` is
exactly `bitLen T.natAbs - 1` (the test branch on the bit-length bound is
always taken for denominator 1). -/
theorem ratLog2Pair_int (a : Nat) (ha : 1 ≤ a) :
    ratLog2Pair a 1 = (bitLen a : Int) - 1 := by
  have hk : (0:Int) ≤ (bitLen a : Int) - 1 := by
    have := bitLen_one_le a ha
    omega
  have hbl := bitLen_le a ha
  have h1 : (bitLen 1 : Int) = 1 := by decide
  unfold ratLog2Pair
  dsimp only
  rw [h1]
  have hcond : 1 * 2 ^ (max ((bitLen a : Int) - 1) 0).toNat ≤
      a * 2 ^ (max (-((bitLen a : Int) - 1)) 0).toNat := by
    rw [max_eq_left hk, max_eq_right (by omega : -((bitLen a : Int) - 1) ≤ 0)]
    simp only [Int.toNat_zero, pow_zero, mul_one, one_mul]
    calc 2 ^ ((bitLen a : Int) - 1).toNat = 2 ^ (bitLen a - 1) := by
          congr 1
          omega
      _ ≤ a := hbl
  rw [if_pos hcond]

theorem intToFloat_pos (T : Int) (hT : 0 < T) : 0 < intToFloat T := by
  unfold intToFloat roundDouble
  have hcast : Rat.divInt T 1 = (T : ℚ) := Rat.divInt_one T
  have hne : ¬ Rat.divInt T 1 = 0 := by
    rw [hcast]
    exact_mod_cast (by omega : T ≠ 0)
  rw [if_neg hne, hcast, Rat.num_intCast, Rat.den_intCast]
  unfold roundDoubleAux
  dsimp only
  set a : Nat := T.natAbs with ha
  have ha1 : 1 ≤ a := by
    rw [ha]
    omega
  have haT : (a : Int) = T := by
    rw [ha]
    omega
  rw [ratLog2Pair_int a ha1]
  set la : Int := (bitLen a : Int) with hla
  have hla1 : 1 ≤ la := by
    rw [hla]
    exact_mod_cast bitLen_one_le a ha1
  set s : Int := 52 - (la - 1) with hs
  set up : Nat := (max s 0).toNat with hup
  set dn : Nat := (max (-s) 0).toNat with hdn
  have hbl : 2 ^ (bitLen a - 1) ≤ a := bitLen_le a ha1
  have hdom : ((1:Nat) : Int) * 2 ^ dn ≤ T * 2 ^ up := by
    by_cases hcase : 0 ≤ s
    · have hdn0 : dn = 0 := by
        rw [hdn]
        simp
        omega
      rw [hdn0]
      have h1T : (1:Int) ≤ T := hT
      have h2up : (1:Int) ≤ 2 ^ up := one_le_pow₀ (by omega)
      push_cast
      nlinarith
    · have hup0 : up = 0 := by
        rw [hup]
        simp
        omega
      have hdns : (dn : Int) = -s := by
        rw [hdn]
        omega
      rw [hup0]
      have hdnla : (dn : Int) = la - 53 := by omega
      have hstep : (2:Int) ^ dn ≤ 2 ^ (bitLen a - 1) := by
        have hle : dn ≤ bitLen a - 1 := by
          have : (bitLen a : Int) = la := by rw [hla]
          omega
        exact pow_le_pow_right₀ (by omega) hle
      have hblZ : (2:Int) ^ (bitLen a - 1) ≤ a := by exact_mod_cast hbl
      push_cast
      rw [haT] at hblZ
      nlinarith
  have hDpos : (0:Int) < ((1:Nat) : Int) * 2 ^ dn := by positivity
  have hm := roundMantissa_one_le _ _ hDpos hdom
  have hnum : (0:Int) < roundMantissa (T * 2 ^ up) (((1:Nat) : Int) * 2 ^ dn) * 2 ^ dn := by
    have h2 : (0:Int) < 2 ^ dn := by positivity
    nlinarith
  rw [Rat.divInt_eq_div]
  apply div_pos
  · exact_mod_cast hnum
  · positivity

theorem roundDouble_one : roundDouble 1 = 1 := by decide

theorem roundDouble_hundred : roundDouble (intToFloat 100) = 100 := by decide

/-- The float expression `(T / T) * 100` of the optimization score evaluates
to exactly 100.0 for any positive integer total. -/
theorem score_self (T : Int) (hT : 0 < T) :
    fmul (fdiv (intToFloat T) (intToFloat T)) (intToFloat 100) = 100 := by
  have hpos := intToFloat_pos T hT
  have hne : intToFloat T ≠ 0 := ne_of_gt hpos
  have hdiv : fdiv (intToFloat T) (intToFloat T) = 1 := by
    unfold fdiv
    rw [qdiv_eq_div, div_self hne]
    exact roundDouble_one
  rw [hdiv]
  unfold fmul
  rw [qmul_eq_mul, one_mul]
  exact roundDouble_hundred

/-! ## Supporting lemmas: greedy depot allocation -/

theorem depotCandidate_spec (sid : String) (nd : Int)
    (lt : String → String → Option Int) (sc : Option (String → String → Option ℚ))
    (p : String × Int) (best : String × Int × ℚ)
    (h : depotCandidate sid nd lt sc p = some best) :
    best.1 = p.1 ∧ best.2.1 = min nd p.2 ∧ 0 < p.2 := by
  unfold depotCandidate at h
  by_cases hpos : p.2 ≤ 0
  · rw [if_pos hpos] at h
    simp at h
  · rw [if_neg hpos] at h
    cases hlt : lt p.1 sid with
    | none => rw [hlt] at h; simp at h
    | some lead_time =>
      rw [hlt] at h
      dsimp only at h
      rcases best with ⟨b1, b2, b3⟩
      simp only [Option.some.injEq, Prod.mk.injEq] at h
      exact ⟨h.1.symm, h.2.1.symm, by omega⟩

theorem find_best_depot_spec (sid : String) (nd : Int) (inv : List (String × Int))
    (lt : String → String → Option Int) (sc : Option (String → String → Option ℚ))
    (d : String) (q : Int) (h : find_best_depot sid nd inv lt sc = some (d, q)) :
    ∃ avail : Int, (d, avail) ∈ inv ∧ 0 < avail ∧ q = min nd avail := by
  unfold find_best_depot at h
  dsimp only at h
  rcases hsort : pysortBy (fun a b : String × Int × ℚ => decide (a.2.2 ≤ b.2.2))
      (inv.filterMap (depotCandidate sid nd lt sc)) with _ | ⟨best, rest⟩
  · rw [hsort] at h
    simp at h
  · rw [hsort] at h
    simp only [Option.some.injEq, Prod.mk.injEq] at h
    have hbestmem : best ∈ inv.filterMap (depotCandidate sid nd lt sc) := by
      have h1 : best ∈ pysortBy (fun a b : String × Int × ℚ => decide (a.2.2 ≤ b.2.2))
          (inv.filterMap (depotCandidate sid nd lt sc)) := by
        rw [hsort]
        exact List.mem_cons_self _ _
      exact (pysortBy_perm _ _).subset h1
    obtain ⟨p, hp, hfp⟩ := List.mem_filterMap.mp hbestmem
    obtain ⟨hb1, hb2, hppos⟩ := depotCandidate_spec sid nd lt sc p best hfp
    refine ⟨p.2, ?_, hppos, ?_⟩
    · have hdp : (d, p.2) = p := by
        have : d = p.1 := by rw [← h.1, hb1]
        rw [this]
      rw [hdp]
      exact hp
    · rw [← h.2, hb2]

theorem allocStep_fold_conservation (lt : String → String → Option Int)
    (sc : Option (String → String → Option ℚ)) :
    ∀ (L : List (String × Int)) (acc : AllocState),
    (∀ p ∈ L, 0 ≤ p.2) →
    (L.foldl (allocStep lt sc) acc).total_allocated +
      (((L.foldl (allocStep lt sc) acc).unmet_demand).map Prod.snd).sum =
    acc.total_allocated + ((acc.unmet_demand.map Prod.snd).sum) + (L.map Prod.snd).sum := by
  intro L
  induction L with
  | nil => intro acc _; simp
  | cons p rest ih =>
    intro acc h
    have hp2 : 0 ≤ p.2 := h p (List.mem_cons_self _ _)
    have hrest : ∀ q ∈ rest, 0 ≤ q.2 := fun q hq => h q (List.mem_cons_of_mem _ hq)
    simp only [List.foldl_cons, List.map_cons, List.sum_cons]
    rw [ih _ hrest]
    have hstep : (allocStep lt sc acc p).total_allocated +
        ((allocStep lt sc acc p).unmet_demand.map Prod.snd).sum =
        acc.total_allocated + (acc.unmet_demand.map Prod.snd).sum + p.2 := by
      unfold allocStep
      by_cases hle : p.2 ≤ 0
      · rw [if_pos hle]
        have : p.2 = 0 := le_antisymm hle hp2
        rw [this]
        ring
      · rw [if_neg hle]
        cases hbd : find_best_depot p.1 p.2 acc.remaining_depot_inv lt sc with
        | none =>
          simp only [List.map_append, List.sum_append, List.map_cons, List.sum_cons,
            List.map_nil, List.sum_nil]
          ring
        | some best =>
          obtain ⟨avail, _, hapos, hq⟩ := find_best_depot_spec _ _ _ _ _ _ _ hbd
          dsimp only
          by_cases hshort : best.2 < p.2
          · rw [if_pos hshort]
            simp only [List.map_append, List.sum_append, List.map_cons, List.sum_cons,
              List.map_nil, List.sum_nil]
            ring
          · rw [if_neg hshort]
            have hbeq : best.2 = p.2 := le_antisymm (hq ▸ min_le_left _ _) (not_lt.mp hshort)
            simp only [hbeq]
            ring
    omega

theorem alookup_of_mem_nodup (l : List (String × Int)) (k : String) (v : Int)
    (hnodup : (l.map Prod.fst).Nodup) (hmem : (k, v) ∈ l) : alookup k l = some v := by
  induction l with
  | nil => simp at hmem
  | cons p rest ih =>
    obtain ⟨k₀, v₀⟩ := p
    simp only [List.map_cons, List.nodup_cons] at hnodup
    rcases List.mem_cons.mp hmem with heq | hmem'
    · rw [← heq]
      simp [alookup]
    · have hne : ¬ k₀ = k := by
        intro hh
        apply hnodup.1
        rw [hh]
        exact List.mem_map.mpr ⟨(k, v), hmem', rfl⟩
      simp [alookup, hne, ih hnodup.2 hmem']

theorem alookup_mem (l : List (String × Int)) (k : String) (v : Int)
    (h : alookup k l = some v) : (k, v) ∈ l := by
  induction l with
  | nil => simp [alookup] at h
  | cons p rest ih =>
    obtain ⟨k₀, v₀⟩ := p
    by_cases hk : k₀ = k
    · rw [show alookup k ((k₀, v₀) :: rest) = if k₀ = k then some v₀ else alookup k rest from rfl,
        if_pos hk, Option.some.injEq] at h
      exact List.mem_cons.mpr (Or.inl (by rw [← hk, ← h]))
    · simp only [alookup, hk, if_false] at h
      exact List.mem_cons_of_mem _ (ih h)

/-- The allocations accumulated by the greedy loop: one batch of new
entries, whose site ids come from the processed list without repetition and
whose quantities are bounded by the processed net demands. -/
theorem allocStep_fold_allocations (lt : String → String → Option Int)
    (sc : Option (String → String → Option ℚ)) :
    ∀ (L : List (String × Int)) (acc : AllocState),
    ∃ new : List AllocationEntry,
      (L.foldl (allocStep lt sc) acc).allocations = acc.allocations ++ new ∧
      List.Sublist (new.map AllocationEntry.site_id) (L.map Prod.fst) ∧
      (∀ e ∈ new, ∃ p, p ∈ L ∧ e.site_id = p.1 ∧ e.quantity ≤ p.2) := by
  intro L
  induction L with
  | nil =>
    intro acc
    exact ⟨[], by simp, by simp, by simp⟩
  | cons p rest ih =>
    intro acc
    simp only [List.foldl_cons]
    have hstep : ∃ added : List AllocationEntry,
        (allocStep lt sc acc p).allocations = acc.allocations ++ added ∧
        (added = [] ∨ ∃ e, added = [e] ∧ e.site_id = p.1 ∧ e.quantity ≤ p.2) := by
      unfold allocStep
      by_cases hle : p.2 ≤ 0
      · rw [if_pos hle]
        exact ⟨[], by simp, Or.inl rfl⟩
      · rw [if_neg hle]
        cases hbd : find_best_depot p.1 p.2 acc.remaining_depot_inv lt sc with
        | none => exact ⟨[], by simp, Or.inl rfl⟩
        | some best =>
          obtain ⟨avail, _, _, hq⟩ := find_best_depot_spec _ _ _ _ _ _ _ hbd
          dsimp only
          by_cases hshort : best.2 < p.2
          · rw [if_pos hshort]
            refine ⟨[{ depot_id := best.1, site_id := p.1, quantity := best.2
                       lead_time_days := ((lt best.1 p.1).getD 7) }], by simp, Or.inr ?_⟩
            exact ⟨_, rfl, rfl, by show best.2 ≤ p.2; exact le_of_lt hshort⟩
          · rw [if_neg hshort]
            refine ⟨[{ depot_id := best.1, site_id := p.1, quantity := best.2
                       lead_time_days := ((lt best.1 p.1).getD 7) }], by simp, Or.inr ?_⟩
            refine ⟨_, rfl, rfl, ?_⟩
            show best.2 ≤ p.2
            rw [hq]
            exact min_le_left _ _
    obtain ⟨added, hacc, hadded⟩ := hstep
    obtain ⟨new, hnew, hsub, hbound⟩ := ih (allocStep lt sc acc p)
    refine ⟨added ++ new, ?_, ?_, ?_⟩
    · rw [hnew, hacc, List.append_assoc]
    · rcases hadded with rfl | ⟨e, rfl, hid, _⟩
      · simp only [List.nil_append, List.map_cons]
        exact hsub.trans (List.sublist_cons_self _ _)
      · simp only [List.map_append, List.map_cons, List.map_nil, List.map_cons]
        rw [hid]
        simpa using List.Sublist.cons₂ p.1 hsub
    · intro e he
      rcases List.mem_append.mp he with he | he
      · rcases hadded with rfl | ⟨e', rfl, hid, hqty⟩
        · simp at he
        · have : e = e' := by simpa using he
          rw [this]
          exact ⟨p, List.mem_cons_self _ _, hid, hqty⟩
      · obtain ⟨p', hp', he'⟩ := hbound e he
        exact ⟨p', List.mem_cons_of_mem _ hp', he'⟩

/-- Total quantity allocated to one site by an allocation plan. -/
def allocatedTo (plan : AllocationPlan) (sid : String) : Int :=
  ((plan.allocations.filter (fun e => e.site_id = sid)).map AllocationEntry.quantity).sum

theorem filter_site_eq_nil (new : List AllocationEntry) (sid : String)
    (h : ¬ sid ∈ new.map AllocationEntry.site_id) :
    new.filter (fun e => e.site_id = sid) = [] := by
  induction new with
  | nil => rfl
  | cons e rest ih =>
    simp only [List.map_cons, List.mem_cons] at h
    push_neg at h
    have hne : ¬ e.site_id = sid := fun hh => h.1 hh.symm
    simp only [List.filter_cons, decide_eq_false hne, Bool.false_eq_true, if_false]
    exact ih h.2

theorem alookup_perm (l₁ l₂ : List (String × Int)) (h : List.Perm l₁ l₂)
    (hnodup : (l₁.map Prod.fst).Nodup) (k : String) : alookup k l₁ = alookup k l₂ := by
  have hnodup₂ : (l₂.map Prod.fst).Nodup := ((h.map Prod.fst).nodup_iff).mp hnodup
  cases h₁ : alookup k l₁ with
  | some v =>
    exact (alookup_of_mem_nodup l₂ k v hnodup₂ (h.subset (alookup_mem _ _ _ h₁))).symm
  | none =>
    cases h₂ : alookup k l₂ with
    | some w =>
      have := alookup_of_mem_nodup l₁ k w hnodup (h.symm.subset (alookup_mem _ _ _ h₂))
      rw [h₁] at this
      exact absurd this (by simp)
    | none => rfl

theorem sum_filter_bound (sid : String) :
    ∀ (new : List AllocationEntry) (L : List (String × Int)),
    (new.map AllocationEntry.site_id).Nodup →
    (∀ e ∈ new, ∃ p, p ∈ L ∧ e.site_id = p.1 ∧ e.quantity ≤ p.2) →
    (L.map Prod.fst).Nodup →
    (∀ p ∈ L, 0 ≤ p.2) →
    ((new.filter (fun e => e.site_id = sid)).map AllocationEntry.quantity).sum ≤
      (alookup sid L).getD 0 := by
  intro new
  induction new with
  | nil =>
    intro L _ _ hLnodup hLpos
    simp only [List.filter_nil, List.map_nil, List.sum_nil]
    cases hl : alookup sid L with
    | none => simp
    | some v =>
      have := hLpos _ (alookup_mem _ _ _ hl)
      simpa using this
  | cons e rest ih =>
    intro L hnodup hshape hLnodup hLpos
    simp only [List.map_cons, List.nodup_cons] at hnodup
    by_cases hid : e.site_id = sid
    · have hrestnil : rest.filter (fun x => x.site_id = sid) = [] := by
        apply filter_site_eq_nil
        rw [← hid]
        exact hnodup.1
      simp only [List.filter_cons, decide_eq_true hid, if_true, hrestnil,
        List.map_cons, List.map_nil, List.sum_cons, List.sum_nil, add_zero]
      obtain ⟨p, hpL, hpid, hpq⟩ := hshape e (List.mem_cons_self _ _)
      have hl : alookup sid L = some p.2 := by
        have hp_eta : (sid, p.2) = p := by
          rw [← hid, hpid]
        rw [← hp_eta] at hpL
        exact alookup_of_mem_nodup L sid p.2 hLnodup hpL
      rw [hl]
      simpa using hpq
    · simp only [List.filter_cons, decide_eq_false hid, Bool.false_eq_true, if_false]
      exact ih L hnodup.2 (fun x hx => hshape x (List.mem_cons_of_mem _ hx)) hLnodup hLpos

/-- C5: for every input, the optimizer allocates to each site at most its
net demand `max(0, demand − inventory)`, and the total allocated plus total
unmet demand equals the total net demand (conservation). -/
theorem claim_C5 (site_demands depot_inventory : List (String × Int))
    (site_inventory : String → Int) (lead_times : String → String → Option Int)
    (shipping_costs : Option (String → String → Option ℚ))
    (hnodup : (site_demands.map Prod.fst).Nodup) :
    (∀ sid : String,
      allocatedTo (optimize_depot_allocation site_demands depot_inventory site_inventory
        lead_times shipping_costs) sid ≤
        (alookup sid (netDemands site_demands site_inventory)).getD 0) ∧
    (optimize_depot_allocation site_demands depot_inventory site_inventory
        lead_times shipping_costs).total_allocated +
      (((optimize_depot_allocation site_demands depot_inventory site_inventory
        lead_times shipping_costs).unmet_demand).map Prod.snd).sum =
      ((netDemands site_demands site_inventory).map Prod.snd).sum := by
  have hkeys : (netDemands site_demands site_inventory).map Prod.fst =
      site_demands.map Prod.fst := by
    unfold netDemands
    rw [List.map_map]
    rfl
  have hnetnodup : ((netDemands site_demands site_inventory).map Prod.fst).Nodup := by
    rw [hkeys]; exact hnodup
  have hnetpos : ∀ p ∈ netDemands site_demands site_inventory, 0 ≤ p.2 := by
    intro p hp
    unfold netDemands at hp
    obtain ⟨p', _, hp'⟩ := List.mem_map.mp hp
    rw [← hp']
    exact le_max_left 0 _
  have hLperm := pysortBy_perm (fun a b : String × Int => decide (b.2 ≤ a.2))
    (netDemands site_demands site_inventory)
  have hLpos : ∀ p ∈ pysortBy (fun a b : String × Int => decide (b.2 ≤ a.2))
      (netDemands site_demands site_inventory), 0 ≤ p.2 :=
    fun p hp => hnetpos p (hLperm.subset hp)
  have hLnodup : ((pysortBy (fun a b : String × Int => decide (b.2 ≤ a.2))
      (netDemands site_demands site_inventory)).map Prod.fst).Nodup :=
    ((hLperm.map Prod.fst).nodup_iff).mpr hnetnodup
  unfold optimize_depot_allocation
  dsimp only
  constructor
  · intro sid
    obtain ⟨new, hallocs, hsub, hbound⟩ := allocStep_fold_allocations lead_times shipping_costs
      (pysortBy (fun a b : String × Int => decide (b.2 ≤ a.2))
        (netDemands site_demands site_inventory))
      { allocations := [], total_allocated := 0, unmet_demand := []
        remaining_depot_inv := depot_inventory }
    unfold allocatedTo
    dsimp only
    rw [hallocs]
    simp only [List.nil_append]
    have hnewnodup : (new.map AllocationEntry.site_id).Nodup := hsub.nodup hLnodup
    have hb := sum_filter_bound sid new _ hnewnodup hbound hLnodup hLpos
    calc ((new.filter (fun e => e.site_id = sid)).map AllocationEntry.quantity).sum
        ≤ (alookup sid (pysortBy (fun a b : String × Int => decide (b.2 ≤ a.2))
            (netDemands site_demands site_inventory))).getD 0 := hb
      _ = (alookup sid (netDemands site_demands site_inventory)).getD 0 := by
          rw [alookup_perm _ _ hLperm hLnodup]
  · have hc := allocStep_fold_conservation lead_times shipping_costs
      (pysortBy (fun a b : String × Int => decide (b.2 ≤ a.2))
        (netDemands site_demands site_inventory))
      { allocations := [], total_allocated := 0, unmet_demand := []
        remaining_depot_inv := depot_inventory }
      hLpos
    dsimp only at hc
    rw [hc]
    have := (hLperm.map Prod.snd).sum_eq
    simp only [List.map_nil, List.sum_nil, add_zero, zero_add]
    exact this

theorem claim_C5_witness :
    (([("A", (100:Int)), ("B", 20)].map Prod.fst).Nodup ∧
     allocatedTo (optimize_depot_allocation [("A", 100), ("B", 20)] [("D1", 60)]
        (fun s => if s = "A" then 50 else if s = "B" then 30 else 0)
        (fun d s => if d = "D1" && (s = "A" || s = "B") then some 5 else none) none) "A" ≤
      (alookup "A" (netDemands [("A", 100), ("B", 20)]
        (fun s => if s = "A" then 50 else if s = "B" then 30 else 0))).getD 0) ∧
    (optimize_depot_allocation [("A", 100), ("B", 20)] [("D1", 60)]
        (fun s => if s = "A" then 50 else if s = "B" then 30 else 0)
        (fun d s => if d = "D1" && (s = "A" || s = "B") then some 5 else none) none).total_allocated +
      (((optimize_depot_allocation [("A", 100), ("B", 20)] [("D1", 60)]
        (fun s => if s = "A" then 50 else if s = "B" then 30 else 0)
        (fun d s => if d = "D1" && (s = "A" || s = "B") then some 5 else none) none).unmet_demand).map
          Prod.snd).sum =
      ((netDemands [("A", 100), ("B", 20)]
        (fun s => if s = "A" then 50 else if s = "B" then 30 else 0)).map Prod.snd).sum :=
  ⟨⟨by decide,
    (claim_C5 [("A", 100), ("B", 20)] [("D1", 60)]
      (fun s => if s = "A" then 50 else if s = "B" then 30 else 0)
      (fun d s => if d = "D1" && (s = "A" || s = "B") then some 5 else none) none (by decide)).1 "A"⟩,
    (claim_C5 [("A", 100), ("B", 20)] [("D1", 60)]
      (fun s => if s = "A" then 50 else if s = "B" then 30 else 0)
      (fun d s => if d = "D1" && (s = "A" || s = "B") then some 5 else none) none (by decide)).2⟩

/-- C6: if a batched reasoning call raises, every site of that batch still
appears in the merged decisions — exactly once — as the rule-lane result:
the RuleEngine's action, quantity and reason (suffixed " (Rules engine)"),
marked `llm_used = false`; no site of the failed batch is missing. -/
theorem claim_C6 (cfg : Config) (st : OrchestratorState) (oracle : LLMOracle)
    (sites : List Site) (b : List Site) (s : Site) (msg : String)
    (havail : st.llm_available = true) (hbatchapi : cfg.USE_BATCH_API = true)
    (hsize : 1 < cfg.BATCH_API_SIZE)
    (hnodup : (sites.map Site.site_id).Nodup)
    (hb : b ∈ chunkList cfg.BATCH_API_SIZE (classified_llm_sites cfg st sites))
    (herr : oracle.batch b = Except.error msg) (hs : s ∈ b) :
    (∃ e ∈ (orchestrator_run cfg st oracle sites).results,
        e.decision = process_site_with_rules cfg s) ∧
    ((orchestrator_run cfg st oracle sites).results.map
        (fun e => e.decision.site_id)).count s.site_id = 1 ∧
    (process_site_with_rules cfg s).llm_used = false ∧
    (process_site_with_rules cfg s).action = (recommend_resupply cfg s).action ∧
    (process_site_with_rules cfg s).quantity = (recommend_resupply cfg s).quantity ∧
    (process_site_with_rules cfg s).reason =
      (recommend_resupply cfg s).reason ++ " (Rules engine)" := by
  have hmode : (cfg.USE_BATCH_API && st.llm_available && decide (1 < cfg.BATCH_API_SIZE)) = true := by
    simp [havail, hbatchapi, hsize]
  have hbne : b.isEmpty = false := by
    cases b
    · simp at hs
    · simp
  have hproc : (process_sites_batch_llm cfg st.llm_available oracle 0 b).1 =
      b.map (process_site_with_rules cfg) := by
    rw [havail]
    unfold process_sites_batch_llm
    rw [if_neg (by simp [hbne])]
    rw [herr]
  have hmem : process_site_with_rules cfg s ∈ run_decisions cfg st oracle sites := by
    unfold run_decisions
    rw [if_pos hmode]
    apply List.mem_append_left
    apply List.mem_flatMap.mpr
    exact ⟨b, hb, by rw [hproc]; exact List.mem_map.mpr ⟨s, hs, rfl⟩⟩
  refine ⟨?_, ?_, rfl, rfl, rfl, rfl⟩
  · rw [orchestrator_run_results_eq]
    exact ⟨enrichResult (sortSites sites) (process_site_with_rules cfg s),
      List.mem_map.mpr ⟨_, hmem, rfl⟩, enrichResult_decision _ _⟩
  · have hids : ((orchestrator_run cfg st oracle sites).results.map
        (fun e => e.decision.site_id)) =
        (run_decisions cfg st oracle sites).map Decision.site_id := by
      rw [orchestrator_run_results_eq, List.map_map]
      apply List.map_congr_left
      intro d _
      show (enrichResult (sortSites sites) d).decision.site_id = d.site_id
      rw [enrichResult_decision]
    have hsllm : s ∈ classified_llm_sites cfg st sites := by
      have hflat : (chunkList cfg.BATCH_API_SIZE (classified_llm_sites cfg st sites)).flatten =
          classified_llm_sites cfg st sites := by
        unfold chunkList
        exact chunkAux_flatten cfg.BATCH_API_SIZE (by omega) _ _ (Nat.le_refl _)
      rw [← hflat]
      exact List.mem_flatten.mpr ⟨b, hb, hs⟩
    have hssorted : s ∈ sortSites sites := by
      unfold classified_llm_sites at hsllm
      exact List.mem_of_mem_filter hsllm
    have hssites : s ∈ sites := (pysortBy_perm _ sites).subset hssorted
    have hmemid : s.site_id ∈ sites.map Site.site_id := List.mem_map.mpr ⟨s, hssites, rfl⟩
    rw [hids, (run_decisions_ids_perm cfg st oracle sites).count_eq]
    exact List.count_eq_one_of_mem hnodup hmemid

set_option maxRecDepth 8000 in
theorem claim_C6_witness :
    (st0.llm_available = true ∧ defaultConfig.USE_BATCH_API = true ∧
     1 < defaultConfig.BATCH_API_SIZE ∧ (([siteA].map Site.site_id)).Nodup ∧
     [siteA] ∈ chunkList defaultConfig.BATCH_API_SIZE
        (classified_llm_sites defaultConfig st0 [siteA]) ∧
     oracleFail.batch [siteA] = Except.error "connection error" ∧ siteA ∈ [siteA]) ∧
    ((∃ e ∈ (orchestrator_run defaultConfig st0 oracleFail [siteA]).results,
        e.decision = process_site_with_rules defaultConfig siteA) ∧
     ((orchestrator_run defaultConfig st0 oracleFail [siteA]).results.map
        (fun e => e.decision.site_id)).count siteA.site_id = 1 ∧
     (process_site_with_rules defaultConfig siteA).llm_used = false ∧
     (process_site_with_rules defaultConfig siteA).action =
        (recommend_resupply defaultConfig siteA).action ∧
     (process_site_with_rules defaultConfig siteA).quantity =
        (recommend_resupply defaultConfig siteA).quantity ∧
     (process_site_with_rules defaultConfig siteA).reason =
        (recommend_resupply defaultConfig siteA).reason ++ " (Rules engine)") :=
  ⟨⟨by decide, by decide, by decide, by decide, by decide, by rfl, by decide⟩,
    claim_C6 defaultConfig st0 oracleFail [siteA] [siteA] siteA "connection error"
      (by decide) (by decide) (by decide) (by decide) (by decide) (by rfl) (by decide)⟩

/-! ## Supporting lemmas: batch response parsing -/

/-- The response entries that echo a given (truthy) site id; empty-string
ids are never matched because `_parse_batch_response` skips falsy ids. -/
def echoedEntries (entries : List BatchEntry) (sid : String) : List BatchEntry :=
  if sid = "" then [] else entries.filter (fun e => e.site_id = some sid)

theorem getLast?_cons_eq (e : α) (l : List α) :
    (e :: l).getLast? = some (l.getLast?.getD e) := by
  induction l generalizing e with
  | nil => rfl
  | cons b bs ih =>
    rw [List.getLast?_cons_cons, ih b]
    simp

theorem echoedEntries_cons_skip (entries : List BatchEntry) (sid : String) (e : BatchEntry)
    (h : ∀ t : String, e.site_id = some t → t = "" ∨ ¬ t = sid) :
    echoedEntries (e :: entries) sid = echoedEntries entries sid := by
  unfold echoedEntries
  by_cases hsid : sid = ""
  · rw [if_pos hsid, if_pos hsid]
  · rw [if_neg hsid, if_neg hsid]
    have hne : ¬ e.site_id = some sid := by
      intro hh
      rcases h sid hh with h1 | h1
      · exact absurd h1 hsid
      · exact h1 rfl
    simp only [List.filter_cons, decide_eq_false hne, Bool.false_eq_true, if_false]

theorem buildMap_lookup (sid : String) :
    ∀ (entries : List BatchEntry) (m : List (String × GeminiResult)),
    alookup sid (entries.foldl
      (fun m e =>
        match e.site_id with
        | none => m
        | some s => if s = "" then m else dictInsert m s (normalizeEntry e)) m) =
    (match (echoedEntries entries sid).getLast? with
     | some e => some (normalizeEntry e)
     | none => alookup sid m) := by
  intro entries
  induction entries with
  | nil =>
    intro m
    have : echoedEntries [] sid = [] := by
      unfold echoedEntries
      split <;> rfl
    rw [this]
    rfl
  | cons e rest ih =>
    intro m
    rw [List.foldl_cons]
    cases hsite : e.site_id with
    | none =>
      rw [echoedEntries_cons_skip rest sid e (by intro t ht; rw [hsite] at ht; simp at ht)]
      exact ih m
    | some t =>
      dsimp only
      by_cases ht0 : t = ""
      · rw [echoedEntries_cons_skip rest sid e
          (by intro u hu; rw [hsite] at hu; simp at hu; left; rw [← hu]; exact ht0)]
        rw [if_pos ht0]
        exact ih m
      · rw [if_neg ht0]
        by_cases hts : t = sid
        · subst hts
          have hech : echoedEntries (e :: rest) t = e :: echoedEntries rest t := by
            unfold echoedEntries
            rw [if_neg ht0, if_neg ht0]
            simp only [List.filter_cons, decide_eq_true (show e.site_id = some t from hsite),
              if_true]
          rw [hech, getLast?_cons_eq]
          rw [ih (dictInsert m t (normalizeEntry e))]
          cases hlast : (echoedEntries rest t).getLast? with
          | some e' => simp
          | none =>
            simp only [Option.getD_none]
            exact alookup_dictInsert_self m t (normalizeEntry e)
        · rw [echoedEntries_cons_skip rest sid e
            (by intro u hu; rw [hsite] at hu; simp at hu; right; exact hu ▸ hts)]
          rw [ih (dictInsert m t (normalizeEntry e))]
          cases hlast : (echoedEntries rest sid).getLast? with
          | some e' => rfl
          | none => exact alookup_dictInsert_ne m t sid (normalizeEntry e) (Ne.symm hts)

/-- C7: for a parseable batch response and input site-id list, the parsed
result list has the same length and order as the input ids, each position
holding the (normalised) response entry whose echoed site id matches — the
last one when several echo the same id, matching dict-overwrite semantics —
and every input id absent from the response receives the low-confidence
`no_resupply` fallback instead of being omitted. -/
theorem claim_C7 (entries : List BatchEntry) (site_ids : List String) (i : Nat) (sid : String)
    (hi : site_ids[i]? = some sid) :
    (parse_batch_response entries site_ids).length = site_ids.length ∧
    (parse_batch_response entries site_ids)[i]? =
      some (match (echoedEntries entries sid).getLast? with
            | some e => normalizeEntry e
            | none => missingSiteFallback sid) := by
  constructor
  · unfold parse_batch_response
    rw [List.length_map]
  · unfold parse_batch_response
    dsimp only
    rw [List.getElem?_map, hi]
    simp only [Option.map_some']
    rw [buildMap_lookup sid entries []]
    cases hlast : (echoedEntries entries sid).getLast? with
    | some e => rfl
    | none => rfl

theorem claim_C7_witness :
    ([ "A", "B" ][0]? = some "A" ∧ [ "A", "B" ][1]? = some "B") ∧
    ((parse_batch_response [] ["A", "B"]).length = 2 ∧
     (parse_batch_response [] ["A", "B"])[0]? = some (missingSiteFallback "A")) ∧
    ((parse_batch_response
        [{ site_id := some "B", structured_result := none, draft_message := some "msg" }]
        ["A", "B"])[1]? =
      some (normalizeEntry
        { site_id := some "B", structured_result := none, draft_message := some "msg" })) :=
  ⟨⟨by decide, by decide⟩,
    claim_C7 [] ["A", "B"] 0 "A" (by decide),
    (claim_C7 [{ site_id := some "B", structured_result := none, draft_message := some "msg" }]
      ["A", "B"] 1 "B" (by decide)).2⟩

/-! ## Supporting lemmas: credential rotation -/

theorem pickRoundRobin_mem (avail : List String) (st : KeyState) (h : avail ≠ []) :
    ∃ k, (pickRoundRobin avail st).1 = some k ∧ k ∈ avail := by
  cases avail with
  | nil => exact absurd rfl h
  | cons a rest => exact ⟨_, rfl, List.get_mem _ _ _⟩

theorem pickRoundRobin_cooldown (avail : List String) (st : KeyState) :
    (pickRoundRobin avail st).2.key_cooldown = st.key_cooldown := by
  cases avail <;> rfl

/-- C8: credential selection is round-robin among the keys whose cooldown
has elapsed; when every key is cooling down, all configured keys'
cooldowns are reset to zero and selection proceeds over the full list — so
whenever at least one credential is configured a credential is always
returned and the no-available-key branch is unreachable. -/
theorem claim_C8 (now : ℚ) (st : KeyState) (h : st.api_keys ≠ []) :
    ∃ k : String, (get_next_available_key now st).1 = some k ∧ k ∈ st.api_keys ∧
      (st.api_keys.filter (fun k => decide (st.key_cooldown k ≤ now)) ≠ [] →
        k ∈ st.api_keys.filter (fun k => decide (st.key_cooldown k ≤ now))) ∧
      (st.api_keys.filter (fun k => decide (st.key_cooldown k ≤ now)) = [] →
        ∀ k' ∈ st.api_keys, (get_next_available_key now st).2.key_cooldown k' = 0) := by
  unfold get_next_available_key
  dsimp only
  by_cases hav : (st.api_keys.filter (fun k => decide (st.key_cooldown k ≤ now))).isEmpty
  · rw [if_pos hav]
    obtain ⟨k, hk, hkmem⟩ := pickRoundRobin_mem st.api_keys
      { st with key_cooldown := fun k => if st.api_keys.contains k then 0 else st.key_cooldown k }
      h
    refine ⟨k, hk, hkmem, ?_, ?_⟩
    · intro hne
      exact absurd (List.isEmpty_iff.mp hav) hne
    · intro _ k' hk'
      rw [pickRoundRobin_cooldown]
      simp only [List.elem_eq_true_of_mem hk', if_true]
  · rw [if_neg hav]
    have hne : st.api_keys.filter (fun k => decide (st.key_cooldown k ≤ now)) ≠ [] := by
      intro hnil
      rw [hnil] at hav
      exact hav rfl
    obtain ⟨k, hk, hkmem⟩ := pickRoundRobin_mem _ st hne
    exact ⟨k, hk, List.mem_of_mem_filter hkmem, fun _ => hkmem,
      fun hnil => absurd hnil hne⟩

theorem claim_C8_witness :
    ((["k1", "k2"] : List String) ≠ []) ∧
    (∃ k : String,
      (get_next_available_key 0
        { api_keys := ["k1", "k2"], current_key_index := 0
          key_cooldown := fun k => if k = "k1" then 100 else 0
          key_failures := fun _ => 0 }).1 = some k ∧
      k ∈ (["k1", "k2"] : List String) ∧
      ((["k1", "k2"] : List String).filter
          (fun k => decide ((if k = "k1" then (100:ℚ) else 0) ≤ 0)) ≠ [] →
        k ∈ (["k1", "k2"] : List String).filter
          (fun k => decide ((if k = "k1" then (100:ℚ) else 0) ≤ 0))) ∧
      ((["k1", "k2"] : List String).filter
          (fun k => decide ((if k = "k1" then (100:ℚ) else 0) ≤ 0)) = [] →
        ∀ k' ∈ (["k1", "k2"] : List String),
          (get_next_available_key 0
            { api_keys := ["k1", "k2"], current_key_index := 0
              key_cooldown := fun k => if k = "k1" then 100 else 0
              key_failures := fun _ => 0 }).2.key_cooldown k' = 0)) :=
  ⟨by decide,
    claim_C8 0
      { api_keys := ["k1", "k2"], current_key_index := 0
        key_cooldown := fun k => if k = "k1" then 100 else 0
        key_failures := fun _ => 0 } (by decide)⟩

/-! ## Supporting lemmas: the synthetic depot step of the run -/

theorem run_results_ids_perm (cfg : Config) (st : OrchestratorState) (oracle : LLMOracle)
    (sites : List Site) :
    List.Perm ((orchestrator_run cfg st oracle sites).results.map (fun e => e.decision.site_id))
      (sites.map Site.site_id) := by
  have hids : (orchestrator_run cfg st oracle sites).results.map (fun e => e.decision.site_id) =
      (run_decisions cfg st oracle sites).map Decision.site_id := by
    rw [orchestrator_run_results_eq, List.map_map]
    apply List.map_congr_left
    intro d _
    show (enrichResult (sortSites sites) d).decision.site_id = d.site_id
    rw [enrichResult_decision]
  rw [hids]
  exact run_decisions_ids_perm cfg st oracle sites

theorem run_results_mem_shape (cfg : Config) (st : OrchestratorState) (oracle : LLMOracle)
    (sites : List Site) (e : EnrichedResult)
    (he : e ∈ (orchestrator_run cfg st oracle sites).results) :
    ∃ d, e = enrichResult (sortSites sites) d := by
  rw [orchestrator_run_results_eq] at he
  obtain ⟨d, _, hd⟩ := List.mem_map.mp he
  exact ⟨d, hd.symm⟩

theorem enrichResult_inventory_nonneg (sites_list : List Site) (d : Decision)
    (hinv : ∀ s ∈ sites_list, 0 ≤ s.current_inventory) :
    0 ≤ (enrichResult sites_list d).current_inventory.getD 0 := by
  unfold enrichResult
  cases hf : sites_list.find? (fun r => r.site_id = d.site_id) with
  | none => simp
  | some row =>
    simp only [Option.getD_some]
    exact hinv row (List.mem_of_find?_eq_some hf)

theorem resupply_filterMap_keys_sublist (rs : List EnrichedResult) :
    List.Sublist ((rs.filterMap (fun r =>
      if r.decision.action = "resupply" then some (r.decision.site_id, r.decision.quantity)
      else none)).map Prod.fst) (rs.map (fun e => e.decision.site_id)) := by
  induction rs with
  | nil => simp
  | cons r rest ih =>
    simp only [List.filterMap_cons]
    by_cases hr : r.decision.action = "resupply"
    · rw [if_pos hr]
      simp only [List.map_cons]
      exact List.Sublist.cons₂ _ ih
    · rw [if_neg hr]
      simp only [List.map_cons]
      exact List.Sublist.cons _ ih

theorem find_best_depot_single (sid depot : String) (nd R : Int)
    (lt : String → String → Option Int) (hR : 0 < R) (hlt : lt depot sid = some 7) :
    find_best_depot sid nd [(depot, R)] lt none = some (depot, min nd R) := by
  unfold find_best_depot
  dsimp only
  have hcand : depotCandidate sid nd lt none (depot, R) = some (depot, min nd R, intToFloat 7) := by
    unfold depotCandidate
    rw [if_neg (by omega)]
    dsimp only
    rw [hlt]
  simp [hcand, pysortBy, insertSorted]

theorem fold_single_depot_full (lt : String → String → Option Int) (depot : String) :
    ∀ (L : List (String × Int)) (A : List AllocationEntry) (t R : Int),
    (∀ p ∈ L, 0 ≤ p.2 ∧ (0 < p.2 → lt depot p.1 = some 7)) →
    (L.map Prod.snd).sum ≤ R →
    (L.foldl (allocStep lt none)
      { allocations := A, total_allocated := t, unmet_demand := []
        remaining_depot_inv := [(depot, R)] }).unmet_demand = [] ∧
    (L.foldl (allocStep lt none)
      { allocations := A, total_allocated := t, unmet_demand := []
        remaining_depot_inv := [(depot, R)] }).total_allocated = t + (L.map Prod.snd).sum := by
  intro L
  induction L with
  | nil =>
    intro A t R _ _
    exact ⟨rfl, by simp⟩
  | cons p rest ih =>
    intro A t R h hsum
    obtain ⟨hp0, hplt⟩ := h p (List.mem_cons_self _ _)
    have hrest : ∀ q ∈ rest, 0 ≤ q.2 ∧ (0 < q.2 → lt depot q.1 = some 7) :=
      fun q hq => h q (List.mem_cons_of_mem _ hq)
    have hrest0 : (0:Int) ≤ (rest.map Prod.snd).sum := by
      apply List.sum_nonneg
      intro x hx
      obtain ⟨q, hq, hq'⟩ := List.mem_map.mp hx
      rw [← hq']
      exact (hrest q hq).1
    simp only [List.map_cons, List.sum_cons] at hsum ⊢
    simp only [List.foldl_cons]
    by_cases hle : p.2 ≤ 0
    · have hp2 : p.2 = 0 := le_antisymm hle hp0
      have hstep : allocStep lt none
          { allocations := A, total_allocated := t, unmet_demand := []
            remaining_depot_inv := [(depot, R)] } p =
          { allocations := A, total_allocated := t, unmet_demand := []
            remaining_depot_inv := [(depot, R)] } := by
        unfold allocStep
        rw [if_pos hle]
      rw [hstep]
      obtain ⟨h1, h2⟩ := ih A t R hrest (by omega)
      exact ⟨h1, by rw [h2]; omega⟩
    · push_neg at hle
      have hRpos : 0 < R := by omega
      have hbd : find_best_depot p.1 p.2
          [(depot, R)] lt none = some (depot, p.2) := by
        rw [find_best_depot_single p.1 depot p.2 R lt hRpos (hplt hle)]
        rw [min_eq_left (by omega)]
      have hstep : allocStep lt none
          { allocations := A, total_allocated := t, unmet_demand := []
            remaining_depot_inv := [(depot, R)] } p =
          { allocations := A ++ [{ depot_id := depot, site_id := p.1, quantity := p.2
                                   lead_time_days := ((lt depot p.1).getD 7) }]
            total_allocated := t + p.2, unmet_demand := []
            remaining_depot_inv := [(depot, R - p.2)] } := by
        unfold allocStep
        rw [if_neg (by omega)]
        rw [hbd]
        dsimp only
        rw [if_neg (by omega)]
        simp
      rw [hstep]
      obtain ⟨h1, h2⟩ := ih _ (t + p.2) (R - p.2) hrest (by omega)
      exact ⟨h1, by rw [h2]; ring⟩

theorem list_sum_nonpos (l : List Int) (h : ∀ x ∈ l, x ≤ 0) : l.sum ≤ 0 := by
  induction l with
  | nil => simp
  | cons x xs ih =>
    simp only [List.sum_cons]
    have h1 := h x (List.mem_cons_self _ _)
    have h2 := ih (fun y hy => h y (List.mem_cons_of_mem _ hy))
    omega

theorem run_depot_step_full (results : List EnrichedResult)
    (hnodup : (results.map (fun e => e.decision.site_id)).Nodup)
    (hq : ∀ e ∈ results, e.decision.action = "resupply" → 0 ≤ e.decision.quantity)
    (hinvnn : ∀ sid : String, 0 ≤ (alookup sid (depot_site_inventory results)).getD 0)
    (plan : AllocationPlan) (hplan : run_depot_step results = some plan) :
    plan.unmet_demand = [] ∧
    plan.total_allocated = ((netDemands (depot_site_demands results)
      (fun s => (alookup s (depot_site_inventory results)).getD 0)).map Prod.snd).sum ∧
    ((∃ p ∈ netDemands (depot_site_demands results)
        (fun s => (alookup s (depot_site_inventory results)).getD 0), 0 < p.2) →
      plan.optimization_score = 100) ∧
    ((∀ p ∈ netDemands (depot_site_demands results)
        (fun s => (alookup s (depot_site_inventory results)).getD 0), p.2 ≤ 0) →
      plan.optimization_score = 0) := by
  unfold run_depot_step at hplan
  by_cases hres : results.isEmpty
  · rw [if_pos hres] at hplan
    simp at hplan
  · rw [if_neg hres] at hplan
    simp only [Option.some.injEq] at hplan
    subst hplan
    have hkeysub := resupply_filterMap_keys_sublist results
    have hfnodup := hkeysub.nodup hnodup
    have hdemself : depot_site_demands results = results.filterMap (fun r =>
        if r.decision.action = "resupply" then some (r.decision.site_id, r.decision.quantity)
        else none) := by
      unfold depot_site_demands
      exact dictOf_nodup_keys _ hfnodup
    have hdemq : ∀ p ∈ depot_site_demands results, 0 ≤ p.2 := by
      intro p hp
      rw [hdemself] at hp
      obtain ⟨r, hr, hfr⟩ := List.mem_filterMap.mp hp
      by_cases ha : r.decision.action = "resupply"
      · rw [if_pos ha] at hfr
        have : p.2 = r.decision.quantity := by
          rw [← Option.some.injEq] at hfr
          cases hfr
          rfl
        rw [this]
        exact hq r hr ha
      · rw [if_neg ha] at hfr
        simp at hfr
    have hnets_nonneg : ∀ p ∈ netDemands (depot_site_demands results)
        (fun s => (alookup s (depot_site_inventory results)).getD 0), 0 ≤ p.2 := by
      intro p hp
      unfold netDemands at hp
      obtain ⟨q, _, hq'⟩ := List.mem_map.mp hp
      rw [← hq']
      exact le_max_left 0 _
    have hnets_le : ((netDemands (depot_site_demands results)
        (fun s => (alookup s (depot_site_inventory results)).getD 0)).map Prod.snd).sum ≤
        ((depot_site_demands results).map Prod.snd).sum := by
      unfold netDemands
      rw [List.map_map]
      apply List.sum_le_sum
      intro p hp
      have h1 : 0 ≤ (alookup p.1 (depot_site_inventory results)).getD 0 := hinvnn p.1
      have h2 : 0 ≤ p.2 := hdemq p hp
      exact max_le h2
        (by show p.2 - (alookup p.1 (depot_site_inventory results)).getD 0 ≤ p.2; omega)
    have hdemsum0 : 0 ≤ ((depot_site_demands results).map Prod.snd).sum := by
      apply List.sum_nonneg
      intro x hx
      obtain ⟨q, hqmem, hq'⟩ := List.mem_map.mp hx
      rw [← hq']
      exact hdemq q hqmem
    have hcap : ((netDemands (depot_site_demands results)
        (fun s => (alookup s (depot_site_inventory results)).getD 0)).map Prod.snd).sum ≤
        ((depot_site_demands results).map Prod.snd).sum * 2 := by omega
    have hlead : ∀ p ∈ pysortBy (fun a b : String × Int => decide (b.2 ≤ a.2))
        (netDemands (depot_site_demands results)
          (fun s => (alookup s (depot_site_inventory results)).getD 0)),
        0 ≤ p.2 ∧ (0 < p.2 → depot_lead_times results "DEPOT_001" p.1 = some 7) := by
      intro p hp
      have hpnets := (pysortBy_perm _ _).subset hp
      refine ⟨hnets_nonneg p hpnets, fun _ => ?_⟩
      have hkey : p.1 ∈ (depot_site_demands results).map Prod.fst := by
        unfold netDemands at hpnets
        obtain ⟨q, hqmem, hq'⟩ := List.mem_map.mp hpnets
        have : p.1 = q.1 := by rw [← hq']
        rw [this]
        exact List.mem_map.mpr ⟨q, hqmem, rfl⟩
      unfold depot_lead_times
      have hc : (("DEPOT_001" : String) = "DEPOT_001" &&
          ((depot_site_demands results).map Prod.fst).contains p.1) = true := by
        rw [Bool.and_eq_true]
        exact ⟨decide_eq_true rfl, List.elem_eq_true_of_mem hkey⟩
      rw [if_pos hc]
    have hsortperm := pysortBy_perm (fun a b : String × Int => decide (b.2 ≤ a.2))
      (netDemands (depot_site_demands results)
        (fun s => (alookup s (depot_site_inventory results)).getD 0))
    have hsortsum : ((pysortBy (fun a b : String × Int => decide (b.2 ≤ a.2))
        (netDemands (depot_site_demands results)
          (fun s => (alookup s (depot_site_inventory results)).getD 0))).map Prod.snd).sum =
        ((netDemands (depot_site_demands results)
          (fun s => (alookup s (depot_site_inventory results)).getD 0)).map Prod.snd).sum :=
      (hsortperm.map Prod.snd).sum_eq
    have hfull := fold_single_depot_full (depot_lead_times results) "DEPOT_001"
      (pysortBy (fun a b : String × Int => decide (b.2 ≤ a.2))
        (netDemands (depot_site_demands results)
          (fun s => (alookup s (depot_site_inventory results)).getD 0)))
      [] 0 (((depot_site_demands results).map Prod.snd).sum * 2) hlead
      (by rw [hsortsum]; exact hcap)
    unfold optimize_depot_allocation depot_inventory_placeholder
    dsimp only
    rw [hsortsum] at hfull
    refine ⟨hfull.1, by rw [hfull.2]; ring, ?_, ?_⟩
    · intro ⟨p, hpmem, hppos⟩
      have hpos : 0 < ((netDemands (depot_site_demands results)
          (fun s => (alookup s (depot_site_inventory results)).getD 0)).map Prod.snd).sum := by
        have hle := List.single_le_sum (l := (netDemands (depot_site_demands results)
            (fun s => (alookup s (depot_site_inventory results)).getD 0)).map Prod.snd)
          (by intro x hx
              obtain ⟨q, hqmem, hq'⟩ := List.mem_map.mp hx
              rw [← hq']
              exact hnets_nonneg q hqmem) p.2 (List.mem_map.mpr ⟨p, hpmem, rfl⟩)
        omega
      rw [if_pos hpos, hfull.2]
      have : (0:Int) + ((netDemands (depot_site_demands results)
          (fun s => (alookup s (depot_site_inventory results)).getD 0)).map Prod.snd).sum =
          ((netDemands (depot_site_demands results)
            (fun s => (alookup s (depot_site_inventory results)).getD 0)).map Prod.snd).sum := by
        ring
      rw [this]
      exact score_self _ hpos
    · intro hall
      have hzero : ((netDemands (depot_site_demands results)
          (fun s => (alookup s (depot_site_inventory results)).getD 0)).map Prod.snd).sum ≤ 0 := by
        apply list_sum_nonpos
        intro x hx
        obtain ⟨q, hqmem, hq'⟩ := List.mem_map.mp hx
        rw [← hq']
        exact hall q hqmem
      have hzero' : 0 ≤ ((netDemands (depot_site_demands results)
          (fun s => (alookup s (depot_site_inventory results)).getD 0)).map Prod.snd).sum := by
        apply List.sum_nonneg
        intro x hx
        obtain ⟨q, hqmem, hq'⟩ := List.mem_map.mp hx
        rw [← hq']
        exact hnets_nonneg q hqmem
      rw [if_neg (by omega)]

/-- An urgent demand site with no stock (reasoning lane). -/
def c10A : Site :=
  { site_id := "A", projected_30d_demand := 100, current_inventory := 0
    days_to_expiry := 60, urgency_score := Rat.divInt 2 1 }

/-- A second urgent demand site with no stock (reasoning lane). -/
def c10B : Site :=
  { site_id := "B", projected_30d_demand := 50, current_inventory := 0
    days_to_expiry := 60, urgency_score := Rat.divInt 9 5 }

/-- A batch oracle returning a well-formed response whose second quantity is
negative (nothing in the pipeline validates it). -/
def oracleNeg : LLMOracle :=
  { single := fun _ => Except.error "unused"
    batch := fun _ => Except.ok
      [{ structured_result := { action := "resupply", quantity := 100
                                confidence := Rat.divInt 9 10, reasons := [] }
         draft_message := "r100" },
       { structured_result := { action := "resupply", quantity := -90
                                confidence := Rat.divInt 9 10, reasons := [] }
         draft_message := "rneg" }] }

set_option maxRecDepth 8000 in
/-- C10 counterexample: a run whose reasoning lane returns a negative
resupply quantity makes the synthetic depot (twice the *sum* of quantities,
here 2×(100−90) = 20) too small for site A's net demand of 100: the
run's depot optimization reports unmet demand `{A: 80}` and a score of 20,
not 100, although a site has positive net demand. -/
theorem claim_C10_counterexample :
    ((orchestrator_run defaultConfig st0 oracleNeg [c10A, c10B]).depot_optimization.map
      (fun p => p.unmet_demand)) = some [("A", 80)] ∧
    ((orchestrator_run defaultConfig st0 oracleNeg [c10A, c10B]).depot_optimization.map
      (fun p => p.optimization_score)) ≠ some 100 ∧
    ("A", (100:Int)) ∈ netDemands
      (depot_site_demands (orchestrator_run defaultConfig st0 oracleNeg [c10A, c10B]).results)
      (fun s => (alookup s (depot_site_inventory
        (orchestrator_run defaultConfig st0 oracleNeg [c10A, c10B]).results)).getD 0) ∧
    (0:Int) < 100 := by
  exact ⟨by decide, by decide, by decide, by decide⟩

/-- C10 (amended): the depot step feeds the optimizer one synthetic depot
`DEPOT_001` holding twice the sum of all resupply quantities with a uniform
7-day lead time (`run_depot_step`); provided every site inventory and every
resupply quantity of the run is nonnegative — as for every well-behaved
reasoning response — the depot step runs exactly when there are results,
its unmet-demand map is empty, and its optimization score is exactly 100.0
when some site has positive net demand and 0.0 otherwise. -/
theorem claim_C10 (cfg : Config) (st : OrchestratorState) (oracle : LLMOracle)
    (sites : List Site)
    (hnodup : (sites.map Site.site_id).Nodup)
    (hinv : ∀ s ∈ sites, 0 ≤ s.current_inventory)
    (hq : ∀ e ∈ (orchestrator_run cfg st oracle sites).results,
      e.decision.action = "resupply" → 0 ≤ e.decision.quantity) :
    ((orchestrator_run cfg st oracle sites).depot_optimization = none ↔
      (orchestrator_run cfg st oracle sites).results = []) ∧
    ∀ plan, (orchestrator_run cfg st oracle sites).depot_optimization = some plan →
      plan.unmet_demand = [] ∧
      ((∃ p ∈ netDemands (depot_site_demands (orchestrator_run cfg st oracle sites).results)
          (fun s => (alookup s (depot_site_inventory
            (orchestrator_run cfg st oracle sites).results)).getD 0), 0 < p.2) →
        plan.optimization_score = 100) ∧
      ((∀ p ∈ netDemands (depot_site_demands (orchestrator_run cfg st oracle sites).results)
          (fun s => (alookup s (depot_site_inventory
            (orchestrator_run cfg st oracle sites).results)).getD 0), p.2 ≤ 0) →
        plan.optimization_score = 0) := by
  have hdepot : (orchestrator_run cfg st oracle sites).depot_optimization =
      run_depot_step (orchestrator_run cfg st oracle sites).results := rfl
  constructor
  · rw [hdepot]
    unfold run_depot_step
    by_cases hres : (orchestrator_run cfg st oracle sites).results.isEmpty
    · rw [if_pos hres]
      simp [List.isEmpty_iff.mp hres]
    · rw [if_neg hres]
      constructor
      · intro h
        simp at h
      · intro h
        rw [h] at hres
        simp at hres
  · intro plan hplan
    have hidsnodup : ((orchestrator_run cfg st oracle sites).results.map
        (fun e => e.decision.site_id)).Nodup :=
      ((run_results_ids_perm cfg st oracle sites).nodup_iff).mpr hnodup
    have hinvdictself : depot_site_inventory (orchestrator_run cfg st oracle sites).results =
        (orchestrator_run cfg st oracle sites).results.map
          (fun r => (r.decision.site_id, r.current_inventory.getD 0)) := by
      unfold depot_site_inventory
      apply dictOf_nodup_keys
      rw [List.map_map]
      exact hidsnodup
    have hinvnn : ∀ sid : String, 0 ≤ (alookup sid
        (depot_site_inventory (orchestrator_run cfg st oracle sites).results)).getD 0 := by
      intro sid
      cases hl : alookup sid (depot_site_inventory (orchestrator_run cfg st oracle sites).results)
        with
      | none => simp
      | some v =>
        have hmem := alookup_mem _ _ _ hl
        rw [hinvdictself] at hmem
        obtain ⟨r, hrmem, hr⟩ := List.mem_map.mp hmem
        have hv : v = r.current_inventory.getD 0 := by
          have := congrArg Prod.snd hr
          simpa using this.symm
        obtain ⟨d, hd⟩ := run_results_mem_shape cfg st oracle sites r hrmem
        rw [Option.getD_some, hv, hd]
        apply enrichResult_inventory_nonneg
        intro s hs
        exact hinv s ((pysortBy_perm _ sites).subset hs)
    rw [hdepot] at hplan
    obtain ⟨h1, _, h3, h4⟩ := run_depot_step_full _ hidsnodup hq hinvnn plan hplan
    exact ⟨h1, h3, h4⟩

set_option maxRecDepth 8000 in
theorem claim_C10_witness :
    (([siteA, siteB].map Site.site_id).Nodup ∧
     (∀ s ∈ [siteA, siteB], 0 ≤ s.current_inventory) ∧
     (∀ e ∈ (orchestrator_run defaultConfig st0 oracleFail [siteA, siteB]).results,
        e.decision.action = "resupply" → 0 ≤ e.decision.quantity)) ∧
    (((orchestrator_run defaultConfig st0 oracleFail [siteA, siteB]).depot_optimization = none ↔
        (orchestrator_run defaultConfig st0 oracleFail [siteA, siteB]).results = []) ∧
     ∀ plan, (orchestrator_run defaultConfig st0 oracleFail [siteA, siteB]).depot_optimization =
         some plan →
       plan.unmet_demand = [] ∧
       ((∃ p ∈ netDemands
           (depot_site_demands (orchestrator_run defaultConfig st0 oracleFail
             [siteA, siteB]).results)
           (fun s => (alookup s (depot_site_inventory
             (orchestrator_run defaultConfig st0 oracleFail [siteA, siteB]).results)).getD 0),
           0 < p.2) →
         plan.optimization_score = 100) ∧
       ((∀ p ∈ netDemands
           (depot_site_demands (orchestrator_run defaultConfig st0 oracleFail
             [siteA, siteB]).results)
           (fun s => (alookup s (depot_site_inventory
             (orchestrator_run defaultConfig st0 oracleFail [siteA, siteB]).results)).getD 0),
           p.2 ≤ 0) →
         plan.optimization_score = 0)) :=
  ⟨⟨by decide, by decide, by decide⟩,
    claim_C10 defaultConfig st0 oracleFail [siteA, siteB] (by decide) (by decide) (by decide)⟩

end ClinSupply
